import Mathlib

/-!
# Verification of the PDTM inference and scoring engine

Shallow embedding of the core subsystem of the PDTM browser extension
(confidence accumulator, round-trip detector, session graph store and GC,
heuristic classifier, risk/state engine), with theorems settling the
frozen claims about it.

Numbers that are JavaScript `number`s carrying fractional weights or scores
are modelled as `ℚ`; timestamps and tab identifiers are modelled as `ℤ`.
Optional JavaScript fields (`undefined`-able) are modelled as `Option`;
JavaScript truthiness tests on such fields are modelled explicitly
(`jsTruthyNum`, `jsTruthyStr`).
-/

namespace PDTM

/-- JS truthiness of an optional numeric field: `undefined` and `0` are falsy. -/
def jsTruthyNum (x : Option Int) : Bool :=
  match x with
  | none => false
  | some n => n != 0

/-- JS truthiness of an optional string field: `undefined` and `""` are falsy. -/
def jsTruthyStr (x : Option String) : Bool :=
  match x with
  | none => false
  | some s => s != ""

/-- `listLeadsWith a b` holds when `a` is an initial segment of `b`. -/
def listLeadsWith : List Char → List Char → Bool
  | [], _ => true
  | _ :: _, [] => false
  | a :: as, b :: bs => a == b && listLeadsWith as bs

/-- Substring test on character lists: `needle` occurs contiguously in `hay`.
Models JavaScript `String.prototype.includes`. -/
def listContainsSub (needle : List Char) : List Char → Bool
  | [] => listLeadsWith needle []
  | c :: rest => listLeadsWith needle (c :: rest) || listContainsSub needle rest

/-- Model of JS `String.prototype.startsWith`. -/
def strStartsWith (s pre : String) : Bool :=
  listLeadsWith pre.toList s.toList

/-- Model of JS `String.prototype.endsWith`. -/
def strEndsWith (s suffix : String) : Bool :=
  listLeadsWith suffix.toList.reverse s.toList.reverse

/-- `String.includes` of JavaScript: substring containment. -/
def strIncludes (hay needle : String) : Bool :=
  listContainsSub needle.toList hay.toList

/-! ## String-method models

Structurally recursive models of the JavaScript string methods the source
uses (`toLowerCase`, `split('.')`, `Array.prototype.join('.')`), so that all
definitions evaluate by kernel reduction. -/

/-- Model of JS `String.prototype.toLowerCase` (ASCII case folding). -/
def strToLower (s : String) : String :=
  String.mk (s.toList.map Char.toLower)

/-- Splits a character list at every occurrence of `sep`. -/
def splitCharAux (sep : Char) : List Char → List (List Char)
  | [] => [[]]
  | c :: rest =>
    match splitCharAux sep rest with
    | [] => [[]]
    | h :: t => if c == sep then [] :: h :: t else (c :: h) :: t

/-- Model of JS `String.prototype.split` with a single-character separator. -/
def strSplitOn (sep : Char) (s : String) : List String :=
  (splitCharAux sep s.toList).map String.mk

/-- Model of JS `Array.prototype.join` with a single-character separator. -/
def strJoin (sep : Char) : List String → String
  | [] => ""
  | [s] => s
  | s :: rest => s ++ String.mk [sep] ++ strJoin sep rest

/-! ## Domain utilities (`src/unnamed/part_004`, `getDomain` / `getETLDPlusOne`) -/

/-- Model of JS `isNaN(parseInt(p))` being *false*: after skipping leading
whitespace, the string starts with an optional sign followed by a decimal
digit. -/
def jsParseIntSucceeds (p : String) : Bool :=
  let t := p.toList.dropWhile (fun c => c == ' ' || c == '\t' || c == '\n' || c == '\r')
  match t with
  | [] => false
  | c :: rest =>
    if c == '+' || c == '-' then
      match rest with
      | [] => false
      | d :: _ => d.isDigit
    else c.isDigit

/-- `getETLDPlusOne` from `src/unnamed/part_004`: lowercases the hostname and
strips one leading `www`/`m`/`mobile` label when at least three labels are
present; hostnames whose every label parses as a number (IP addresses) are
returned unchanged. -/
def getETLDPlusOne (hostname : String) : String :=
  if hostname = "" then ""
  else
    let clean := strToLower hostname
    let parts := strSplitOn '.' clean
    if parts.all (fun p => jsParseIntSucceeds p) then clean
    else if parts.length > 2 then
      if parts.headD "" = "www" ∨ parts.headD "" = "m" ∨ parts.headD "" = "mobile" then
        strJoin '.' (parts.drop 1)
      else clean
    else clean

/-- C10 helper: the spec-side description of the reduction — strip exactly the
first label when the lowercased hostname has ≥ 3 dot-separated labels and that
label is exactly `www`, `m`, or `mobile`; otherwise return the lowercased
hostname unchanged. -/
def specDomainReduction (hostname : String) : String :=
  let clean := strToLower hostname
  let parts := strSplitOn '.' clean
  if parts.length ≥ 3 ∧ (parts.headD "" = "www" ∨ parts.headD "" = "m" ∨ parts.headD "" = "mobile") then
    strJoin '.' (parts.drop 1)
  else clean

/-! ## Evidence vocabulary (`src/unnamed/part_010`, `EVIDENCE_TYPES`) -/
def REDIRECT_URI_MATCH : String := "redirect_uri_match"

def STRONG_PATH : String := "strong_path"

def KNOWN_IDP : String := "known_idp"

def SAML_FORM : String := "saml_form"

def OAUTH_PARAMS : String := "oauth_params"

def OPENER_LINK : String := "opener_link"

def TEMPORAL_CHAIN : String := "temporal_chain"

def TRANSITION_QUALIFIERS : String := "transition_qualifiers"

/-- Modelled from the spec: `aux_constants.js` is referenced by
`src/utils/confidence.js` but is not among the provided sources.  The spec
fixes the weak-qualifier accumulation cap at 0.1. -/
def MAX_BONUS : ℚ := 1/10

/-- Modelled from the spec: `aux_constants.js` is referenced by
`src/utils/confidence.js` but is not among the provided sources.  The spec
fixes the safety ceiling applied without strong evidence at 0.6. -/
def CAP_WITHOUT_STRONG_EVIDENCE : ℚ := 6/10

/-! ## Evidence/Confidence accumulator (`src/utils/confidence.js`) -/

/-- `clamp01` from `src/utils/confidence.js`. -/
def clamp01 (x : ℚ) : ℚ := max 0 (min 1 x)

/-- The confidence accumulator state (`createConfidenceState`).  The JS
`Set` of evidence kinds is modelled as an insertion-ordered duplicate-free
list. -/
structure ConfidenceState where
  score : ℚ
  evidenceSet : List String
  auxScore : ℚ
deriving Repr, DecidableEq

def createConfidenceState : ConfidenceState :=
  { score := 0, evidenceSet := [], auxScore := 0 }

/-- JS `Set.prototype.add`: appends the element when absent. -/
def setAdd (s : List String) (x : String) : List String :=
  if s.contains x then s else s ++ [x]

/-- `addEvidenceOnce` from `src/utils/confidence.js`. -/
def addEvidenceOnce (state : ConfidenceState) (evidenceType : String) (weight : ℚ) :
    ConfidenceState :=
  if evidenceType = TRANSITION_QUALIFIERS then
    let auxScore :=
      if state.auxScore < MAX_BONUS then min (state.auxScore + weight) MAX_BONUS
      else state.auxScore
    { state with auxScore := auxScore, evidenceSet := setAdd state.evidenceSet evidenceType }
  else if state.evidenceSet.contains evidenceType then state
  else { state with
          evidenceSet := setAdd state.evidenceSet evidenceType,
          score := state.score + weight }

/-- The four designated strong kinds tested by `finalizeConfidence`. -/
def strongTypes : List String :=
  [REDIRECT_URI_MATCH, STRONG_PATH, OPENER_LINK, TEMPORAL_CHAIN]

structure FinalizedConfidence where
  confidence : ℚ
  evidenceFlags : List String
deriving Repr, DecidableEq

/-- `finalizeConfidence` from `src/utils/confidence.js`: clamps the combined
score and, when no designated strong kind is present *and* the weak (aux) sum
is positive, caps it at the safety ceiling. -/
def finalizeConfidence (state : ConfidenceState) : FinalizedConfidence :=
  let finalScore := state.score + state.auxScore
  let hasStrong := strongTypes.any (fun t => state.evidenceSet.contains t)
  let finalScore :=
    if ¬hasStrong ∧ state.auxScore > 0 then min finalScore CAP_WITHOUT_STRONG_EVIDENCE
    else finalScore
  { confidence := clamp01 finalScore, evidenceFlags := state.evidenceSet }

/-- Replays a sequence of `addEvidenceOnce` calls on a fresh state. -/
def applyEvidence (adds : List (String × ℚ)) : ConfidenceState :=
  adds.foldl (fun st p => addEvidenceOnce st p.1 p.2) createConfidenceState

/-! ## Round-trip detector (`src/utils/roundtrip.js`, `isRoundtrip`) -/

/-- A navigation event as consumed by `isRoundtrip`
(`{ ts, domain, tabId?, openerTabId? }`). -/
structure RtEvent where
  ts : Int
  domain : String
  tabId : Option Int
  openerTabId : Option Int
deriving Repr, DecidableEq

/-- Stable insertion by ascending integer key (earlier elements stay before
later elements with an equal key). -/
def insertByKey {α : Type} (key : α → Int) (e : α) : List α → List α
  | [] => [e]
  | x :: xs => if key e ≤ key x then e :: x :: xs else x :: insertByKey key e xs

/-- Stable sort by ascending integer key; models JS
`Array.prototype.sort((a, b) => key(a) - key(b))`, which is stable. -/
def sortByKey {α : Type} (key : α → Int) : List α → List α
  | [] => []
  | x :: xs => insertByKey key x (sortByKey key xs)

/-- The sorted event list built at the top of `isRoundtrip`. -/
def sortByTs (events : List RtEvent) : List RtEvent :=
  sortByKey (fun e => e.ts) events

/-- The forward-leg search of `isRoundtrip`: walking the sorted list, finds
the first event whose domain is the IdP and whose immediately preceding
event's domain is the RP; returns that event together with the remainder of
the list after it. -/
def findForwardAux (rp idp : String) (prev : RtEvent) :
    List RtEvent → Option (RtEvent × List RtEvent)
  | [] => none
  | e :: tl =>
    if e.domain = idp ∧ prev.domain = rp then some (e, tl)
    else findForwardAux rp idp e tl

/-- The forward/backward leg selection of `isRoundtrip` (steps 1–2 of the
source): sorts by timestamp, finds the forward leg, then the first later
event whose domain is the RP (the backward leg). -/
def roundtripLegs (rp idp : String) (events : List RtEvent) :
    Option (RtEvent × RtEvent) :=
  if events.length < 2 then none
  else
    match sortByTs events with
    | [] => none
    | x :: rest =>
      match findForwardAux rp idp x rest with
      | none => none
      | some (f, tl) =>
        match tl.find? (fun e => e.domain == rp) with
        | none => none
        | some b => some (f, b)

/-- Default TTL of `isRoundtrip` (30 s). -/
def DEFAULT_TTL_MS : Int := 30000

/-- `isRoundtrip` from `src/utils/roundtrip.js` (steps 3–4 on the legs found
by `roundtripLegs`): TTL check, then the tab-context guard — applied only
when both legs carry (JS-truthy) tab ids, and skipped when they are equal. -/
def isRoundtrip (rp idp : String) (events : List RtEvent) (ttlMs : Int) : Bool :=
  match roundtripLegs rp idp events with
  | none => false
  | some (f, b) =>
    if b.ts - f.ts > ttlMs then false
    else if jsTruthyNum f.tabId && jsTruthyNum b.tabId then
      if f.tabId == b.tabId then true
      else decide (b.openerTabId = f.tabId ∨ f.openerTabId = b.tabId)
    else true

/-- Witness events: rp → idp → rp within the TTL in the same tab. -/
def rtWitnessEvents : List RtEvent :=
  [{ ts := 0, domain := "rp.example", tabId := some 1, openerTabId := none },
   { ts := 1000, domain := "idp.example", tabId := some 1, openerTabId := none },
   { ts := 2000, domain := "rp.example", tabId := some 1, openerTabId := none }]

/-- Witness events for C3: forward leg in tab 1, backward leg in tab 2 whose
snapshotted opener is tab 1. -/
def rtTabWitnessEvents : List RtEvent :=
  [{ ts := 0, domain := "rp.example", tabId := some 1, openerTabId := none },
   { ts := 10, domain := "idp.example", tabId := some 1, openerTabId := none },
   { ts := 20, domain := "rp.example", tabId := some 2, openerTabId := some 1 }]

/-! ## Activity levels (`src/signals/activity_levels.js`) and management
states.  The management-state enum file (`management_state.js`) is not among
the provided sources; its four values are modelled from the spec. -/
namespace ActivityLevels

def VIEW : String := "view"

def ACCOUNT : String := "account"

def UGC : String := "ugc"

def TRANSACTION : String := "transaction"

end ActivityLevels

namespace MANAGEMENT_STATE

/-- Modelled from the spec: `management_state.js` is referenced but missing
from the sources; the spec fixes the vocabulary none / needs-review /
suggested / pinned. -/
def NONE : String := "none"

def NEEDS_REVIEW : String := "needs_review"

def SUGGESTED : String := "suggested"

def PINNED : String := "pinned"

end MANAGEMENT_STATE

/-! ## Management-state mapper (`src/risk/state_mapper.js`) -/

/-- `mapToManagementState` from `src/risk/state_mapper.js`.  The JS early
returns are embedded as an if-else chain whose guards conjoin the enclosing
conditions. -/
def mapToManagementState (level : String) (score confidence : ℚ)
    (rp_domain : Option String) (evidenceFlags : List String)
    (seenCount : Int) (isPinned : Bool) : String :=
  if isPinned then MANAGEMENT_STATE.PINNED
  else if confidence ≥ 8/10 ∧ level = ActivityLevels.TRANSACTION then
    MANAGEMENT_STATE.SUGGESTED
  else if confidence ≥ 8/10 ∧ level = ActivityLevels.ACCOUNT ∧
      (jsTruthyStr rp_domain = true ∨
       (evidenceFlags.contains REDIRECT_URI_MATCH ||
        evidenceFlags.contains TEMPORAL_CHAIN) = true) then
    MANAGEMENT_STATE.SUGGESTED
  else if level ≠ ActivityLevels.VIEW ∧ confidence ≥ 6/10 ∧ score ≥ 40 then
    MANAGEMENT_STATE.NEEDS_REVIEW
  else if seenCount ≥ 100 ∧ confidence > 3/10 then
    MANAGEMENT_STATE.NEEDS_REVIEW
  else if level = ActivityLevels.VIEW ∧ seenCount ≥ 200 then
    MANAGEMENT_STATE.NEEDS_REVIEW
  else MANAGEMENT_STATE.NONE

/-- C5 helper: the spec's priority-ordered decision table, transcribed from
§4.5 of the spec, evaluated top to bottom with first match winning. -/
def specManagementDecisionTable (level : String) (score confidence : ℚ)
    (rp_domain : Option String) (evidenceFlags : List String)
    (seenCount : Int) (isPinned : Bool) : String :=
  if isPinned then MANAGEMENT_STATE.PINNED
  else if confidence ≥ 8/10 ∧ level = ActivityLevels.TRANSACTION then
    MANAGEMENT_STATE.SUGGESTED
  else if confidence ≥ 8/10 ∧ level = ActivityLevels.ACCOUNT ∧
      (jsTruthyStr rp_domain = true ∨
       evidenceFlags.contains REDIRECT_URI_MATCH = true ∨
       evidenceFlags.contains TEMPORAL_CHAIN = true) then
    MANAGEMENT_STATE.SUGGESTED
  else if level ≠ ActivityLevels.VIEW ∧ confidence ≥ 6/10 ∧ score ≥ 40 then
    MANAGEMENT_STATE.NEEDS_REVIEW
  else if seenCount ≥ 100 ∧ confidence > 3/10 then
    MANAGEMENT_STATE.NEEDS_REVIEW
  else if level = ActivityLevels.VIEW ∧ seenCount ≥ 200 then
    MANAGEMENT_STATE.NEEDS_REVIEW
  else MANAGEMENT_STATE.NONE

/-! ## Risk-reason vocabulary (`src/unnamed/part_008`) -/
namespace RISK_REASONS

def LEVEL_TRANSACTION : String := "level_transaction"

def LEVEL_ACCOUNT : String := "level_account"

def LEVEL_UGC : String := "level_ugc"

def FREQUENT_VISITOR : String := "frequent_visitor"

def USER_WHITELISTED : String := "user_whitelisted"

def USER_PINNED : String := "user_pinned"

def CAT_FINANCE : String := "cat_finance"

def CAT_AUTH : String := "cat_auth"

def CAT_SHOPPING : String := "cat_shopping"

end RISK_REASONS

namespace CATEGORIES

def FINANCE : String := "finance"

def AUTH : String := "auth"

def SHOPPING : String := "shopping"

end CATEGORIES

/-! ## Risk calculation job (`src/jobs/risk_job.js`, `updateRiskForDomain`) -/

/-- The slice of the per-domain activity aggregate that
`updateRiskForDomain` reads. -/
structure ActivityStateRec where
  last_estimation_level : String
deriving Repr, DecidableEq

/-- The slice of the per-domain stats aggregate that `updateRiskForDomain`
reads. -/
structure DomainStateRec where
  visit_count_total : Int
deriving Repr, DecidableEq

/-- A user override record (`user_overrides` bucket). -/
structure UserOverride where
  ignored : Bool
  pinned : Bool
  whitelisted : Bool
  category : Option String
deriving Repr, DecidableEq

/-- The risk record written by `updateRiskForDomain`. -/
structure RiskRecord where
  score : ℚ
  confidence : String
  reasons : List String
deriving Repr, DecidableEq

/-- JS `override?.ignored` with `undefined` falsy. -/
def ovIgnored (override : Option UserOverride) : Bool :=
  match override with | some o => o.ignored | none => false

/-- JS `override?.whitelisted` with `undefined` falsy. -/
def ovWhitelisted (override : Option UserOverride) : Bool :=
  match override with | some o => o.whitelisted | none => false

/-- JS `override?.pinned` with `undefined` falsy. -/
def ovPinned (override : Option UserOverride) : Bool :=
  match override with | some o => o.pinned | none => false

/-- JS `override?.category` (an absent override yields `undefined`). -/
def ovCategory (override : Option UserOverride) : Option String :=
  match override with | some o => o.category | none => none

/-- JS `activityState?.last_estimation_level || ActivityLevels.VIEW`. -/
def effectiveLevel (activity : Option ActivityStateRec) : String :=
  match activity with
  | some a => a.last_estimation_level
  | none => ActivityLevels.VIEW

/-- JS `domainState?.visit_count_total || 0`. -/
def effectiveVisits (domainState : Option DomainStateRec) : Int :=
  match domainState with | some d => d.visit_count_total | none => 0

/-- The pure computation of `updateRiskForDomain` from `src/jobs/risk_job.js`:
the record it persists for a domain, given the fetched activity state, domain
stats and user override. -/
def updateRiskForDomain_record (activity : Option ActivityStateRec)
    (domainState : Option DomainStateRec) (override : Option UserOverride) :
    RiskRecord :=
  if ovIgnored override then
    { score := 0, confidence := "high", reasons := [] }
  else
    let level := effectiveLevel activity
    let sr1 : ℚ × List String :=
      if level = ActivityLevels.TRANSACTION then (70, [RISK_REASONS.LEVEL_TRANSACTION])
      else if level = ActivityLevels.UGC then (45, [RISK_REASONS.LEVEL_UGC])
      else if level = ActivityLevels.ACCOUNT then (30, [RISK_REASONS.LEVEL_ACCOUNT])
      else (5, [])
    let totalVisits := effectiveVisits domainState
    let sr2 : ℚ × List String :=
      if totalVisits > 200 then (sr1.1 + 10, sr1.2 ++ [RISK_REASONS.FREQUENT_VISITOR])
      else if totalVisits > 50 then (sr1.1 + 5, sr1.2)
      else sr1
    let sr3 : ℚ × List String :=
      match ovCategory override with
      | none => sr2
      | some c =>
        if c = CATEGORIES.FINANCE then (sr2.1 + 20, sr2.2 ++ [RISK_REASONS.CAT_FINANCE])
        else if c = CATEGORIES.AUTH then (sr2.1 + 15, sr2.2 ++ [RISK_REASONS.CAT_AUTH])
        else if c = CATEGORIES.SHOPPING then (sr2.1 + 10, sr2.2 ++ [RISK_REASONS.CAT_SHOPPING])
        else sr2
    let sr4 : ℚ × List String :=
      if ovWhitelisted override then
        (max 0 (sr3.1 - 30), sr3.2 ++ [RISK_REASONS.USER_WHITELISTED])
      else sr3
    let sr5 : ℚ × List String :=
      if ovPinned override then
        (sr4.1, sr4.2 ++ [RISK_REASONS.USER_PINNED])
      else sr4
    { score := min 100 (max 0 sr5.1), confidence := "medium", reasons := sr5.2 }

/-! ## Session graph store (`src/storage/session_gc.js`, session store part) -/

/-- A tab node of the session tab graph. -/
structure TabNode where
  openerTabId : Option Int
  createdAt : Int
  lastSeenAt : Int
deriving Repr, DecidableEq

/-- The tab graph: a JS object keyed by tab id, modelled as an association
list with duplicate-free keys. -/
def TabGraph : Type := List (Int × TabNode)

/-- JS `tabGraph[tabId]`. -/
def lookupTab (g : List (Int × TabNode)) (tabId : Int) : Option TabNode :=
  match g.find? (fun p => p.1 == tabId) with
  | some p => some p.2
  | none => none

/-- `resolveContextId` from the session store in `src/storage/session_gc.js`,
with an explicit fuel so the JS recursion (which has no fuel) is modelled
totally; the termination theorem shows fuel `|graph| + 1` always suffices
from an empty visited set.  Returns the root id together with the final
visited set.  A visited id is returned as its own root (cycle break); a tab
with no entry, no opener, or a JS-falsy opener (`!node.openerTabId`, i.e.
absent or `0`) is a root. -/
def resolveContextIdAux (g : List (Int × TabNode)) :
    Nat → Int → List Int → Option (Int × List Int)
  | 0, _, _ => none
  | fuel+1, tabId, visited =>
    if tabId ∈ visited then some (tabId, visited)
    else
      let visited' := tabId :: visited
      match lookupTab g tabId with
      | none => some (tabId, visited')
      | some node =>
        match node.openerTabId with
        | none => some (tabId, visited')
        | some op =>
          if op = 0 then some (tabId, visited')
          else resolveContextIdAux g fuel op visited'

/-- `resolveContextId(tabId, tabGraph)`: the root tab id reached by walking
the opener chain (JS returns it stringified; integer keys are kept here,
`String(·)` being injective on them). -/
def resolveContextId (g : List (Int × TabNode)) (tabId : Int) : Int :=
  match resolveContextIdAux g (g.length + 1) tabId [] with
  | some (r, _) => r
  | none => tabId

/-- A two-cycle tab graph: tab 1 opened by tab 2 and tab 2 opened by tab 1. -/
def cycleTabGraph : List (Int × TabNode) :=
  [(1, { openerTabId := some 2, createdAt := 0, lastSeenAt := 0 }),
   (2, { openerTabId := some 1, createdAt := 0, lastSeenAt := 0 })]

/-! ## URL platform model

The source calls the WHATWG `URL` browser API (`new URL(s)`, `.protocol`,
`.hostname`, `.pathname`, `.searchParams.keys()`).  `parseURL` models it for
ordinary `scheme://host[:port][/path][?query][#fragment]` URLs:
percent-decoding of parameter keys is not modelled (the keys the detection
rules look for contain no escapes). -/
structure JsUrl where
  protocol : String
  hostname : String
  pathname : String
  searchKeys : List String
deriving Repr, DecidableEq

/-- Splits the part after the authority into `.pathname` (defaulting to
`"/"`) and the raw `searchParams` key list (every occurrence, empty
`&`-segments skipped, key = text before the first `=`). -/
def splitPathQuery (after : List Char) : String × List String :=
  let beforeFrag := after.takeWhile (fun c => c ≠ '#')
  let path := beforeFrag.takeWhile (fun c => c ≠ '?')
  let q := match beforeFrag.drop path.length with
    | '?' :: qs => qs
    | _ => []
  let keys := ((splitCharAux '&' q).filter (fun kv => kv ≠ [])).map
    (fun kv => String.mk (kv.takeWhile (fun c => c ≠ '=')))
  (if path = [] then "/" else String.mk path, keys)

/-- Model of `new URL(s)` for http-like URLs: scheme before `"://"`, then the
authority up to the first `/`, `?` or `#` (port stripped at the first `:`),
then path/query/fragment.  Returns `none` where the constructor would
throw. -/
def parseURL (s : String) : Option JsUrl :=
  let cs := s.toList
  let scheme := cs.takeWhile (fun c => c ≠ ':')
  match cs.drop scheme.length with
  | ':' :: '/' :: '/' :: rest2 =>
    if scheme = [] then none
    else
      let auth := rest2.takeWhile (fun c => c ≠ '/' ∧ c ≠ '?' ∧ c ≠ '#')
      let host := auth.takeWhile (fun c => c ≠ ':')
      if host = [] then none
      else
        let pq := splitPathQuery (rest2.drop auth.length)
        some { protocol := String.mk (scheme.map Char.toLower) ++ ":",
               hostname := String.mk (host.map Char.toLower),
               pathname := pq.1,
               searchKeys := pq.2 }
  | _ => none

/-- `getDomain` from `src/unnamed/part_004`: the hostname of an http(s) URL,
`none` for empty, unparseable or non-http(s) input. -/
def getDomain (urlStr : String) : Option String :=
  if urlStr = "" then none
  else
    match parseURL urlStr with
    | none => none
    | some u =>
      if u.protocol = "http:" ∨ u.protocol = "https:" then some u.hostname
      else none

/-! ## Session store (`src/storage/session_gc.js`, session store and GC) -/

/-- A temporal-graph event (`{ts, domain, tabId, openerTabId, kind}`); the
URL is deliberately never stored, only the reduced domain. -/
structure SEvent where
  ts : Int
  domain : String
  tabId : Int
  openerTabId : Option Int
  kind : String
deriving Repr, DecidableEq

/-- A temporal-graph context entry (`{events, updatedAt}`). -/
structure CtxEntry where
  events : List SEvent
  updatedAt : Int
deriving Repr, DecidableEq

/-- The session store: tab graph and temporal graph, JS objects modelled as
association lists keyed by (context/tab) id. -/
structure SessionState where
  tabGraph : List (Int × TabNode)
  tempGraph : List (Int × CtxEntry)
deriving Repr, DecidableEq

def MAX_EVENTS_PER_CONTEXT : Nat := 20

def MAX_CONTEXTS : Nat := 200

def TEMPORAL_TTL_MS : Int := 60000

def TAB_TTL_MS : Int := 3600000

/-- JS object read `obj[k]`. -/
def lookupAssoc {β : Type} (l : List (Int × β)) (k : Int) : Option β :=
  match l.find? (fun p => p.1 == k) with
  | some p => some p.2
  | none => none

/-- JS object write `obj[k] = v`: replaces in place, appends when new. -/
def setAssoc {β : Type} : List (Int × β) → Int → β → List (Int × β)
  | [], k, v => [(k, v)]
  | p :: rest, k, v => if p.1 == k then (k, v) :: rest else p :: setAssoc rest k v

/-- The ring-buffer append of `recordTemporalEvent`: push the new event, then
trim from the front when the sequence exceeds the per-context maximum. -/
def appendEventCapped (events : List SEvent) (e : SEvent) : List SEvent :=
  let events0 := events ++ [e]
  if events0.length > MAX_EVENTS_PER_CONTEXT then
    events0.drop (events0.length - MAX_EVENTS_PER_CONTEXT)
  else events0

/-- The tab-node refresh at the top of `recordTemporalEvent`: create the node
when absent, else touch `lastSeenAt`. -/
def touchTab (g : List (Int × TabNode)) (tabId : Int) (now : Int) :
    List (Int × TabNode) :=
  match lookupTab g tabId with
  | none => setAssoc g tabId { openerTabId := none, createdAt := now, lastSeenAt := now }
  | some node => setAssoc g tabId { node with lastSeenAt := now }

/-- `tabGraph[tabId].openerTabId`, the opener snapshotted onto the event. -/
def snapshotOpener (g : List (Int × TabNode)) (tabId : Int) : Option Int :=
  match lookupTab g tabId with
  | some n => n.openerTabId
  | none => none

/-- `recordTemporalEvent` from the session store in
`src/storage/session_gc.js`: resolves the reduced domain (silent no-op on
failure), refreshes the tab node, resolves the context id by walking the
opener chain, and appends the event to that context with ring-buffer
trimming. -/
def recordTemporalEvent (st : SessionState) (tabId : Int) (url kind : String)
    (now : Int) : SessionState :=
  match getDomain url with
  | none => st
  | some hostname =>
    let domain := getETLDPlusOne hostname
    if domain = "" then st
    else
      let tabGraph := touchTab st.tabGraph tabId now
      let contextId := resolveContextId tabGraph tabId
      let openerId := snapshotOpener tabGraph tabId
      let contextData := (lookupAssoc st.tempGraph contextId).getD
        { events := [], updatedAt := 0 }
      let newEvent : SEvent :=
        { ts := now, domain := domain, tabId := tabId,
          openerTabId := openerId, kind := kind }
      { tabGraph := tabGraph,
        tempGraph := setAssoc st.tempGraph contextId
          { events := appendEventCapped contextData.events newEvent,
            updatedAt := now } }

/-- The contexts surviving step 1 (TTL cleaning) of
`pruneExpiredSessionData`. -/
def ttlSurvivors (st : SessionState) (now : Int) : List (Int × CtxEntry) :=
  st.tempGraph.filter (fun p => decide (now - p.2.updatedAt ≤ TEMPORAL_TTL_MS))

/-- `pruneExpiredSessionData` from `src/storage/session_gc.js`: drop contexts
older than the TTL; if more than the capacity remain, evict
oldest-updated-first down to the capacity; drop tab nodes unseen for longer
than the tab TTL. -/
def pruneExpiredSessionData (st : SessionState) (now : Int) : SessionState :=
  let temp1 := ttlSurvivors st now
  let temp2 :=
    if temp1.length > MAX_CONTEXTS then
      let sorted := sortByKey (fun p => p.2.updatedAt) temp1
      let toRemove := (sorted.take (temp1.length - MAX_CONTEXTS)).map Prod.fst
      temp1.filter (fun p => decide (p.1 ∉ toRemove))
    else temp1
  { tabGraph := st.tabGraph.filter
      (fun p => decide (now - p.2.lastSeenAt ≤ TAB_TTL_MS)),
    tempGraph := temp2 }

/-! ## Signal vocabulary (`src/signals/signal_codes.js`) -/
def URL_LOGIN : String := "url_login"

def URL_SIGNUP : String := "url_signup"

def URL_ACCOUNT : String := "url_account"

def URL_EDITOR : String := "url_editor"

def URL_CHECKOUT : String := "url_checkout"

def DOM_PASSWORD : String := "dom_password"

def DOM_EDITOR : String := "dom_editor"

def DOM_PAYMENT : String := "dom_payment"

def PASSIVE : String := "passive_view"

/-- Modelled from the spec: the Chapter-5 `signal_codes.js` defining the
dedicated SAML-form DOM signal code is not among the provided sources; the
spec describes "a dedicated SAML-form signal code, produced only by DOM
inspection".  Like the other DOM codes it carries the `dom_` marker. -/
def DOM_SAML : String := "dom_saml"

/-- `Object.values(SIGNAL_CODES)`, the closed signal vocabulary accepted from
untrusted callers. -/
def SIGNAL_CODES_values : List String :=
  [URL_LOGIN, URL_SIGNUP, URL_ACCOUNT, URL_EDITOR, URL_CHECKOUT,
   DOM_PASSWORD, DOM_EDITOR, DOM_PAYMENT, DOM_SAML, PASSIVE]

/-! ## Heuristics (`src/signals/heuristics.js`) -/

/-- The outcome of `evaluateSignals`: base level, bucketed confidence and the
matched reasons. -/
structure EvalResult where
  level : String
  confidence : String
  reasons : List String
deriving Repr, DecidableEq

/-- JS `new Set(signals)` materialized in insertion order. -/
def dedupSignals (signals : List String) : List String :=
  signals.foldl setAdd []

/-- `evaluateSignals` from `src/signals/heuristics.js`: strict priority
transaction > UGC > account > view, reasons = the matched codes. -/
def evaluateSignals (signals : List String) : EvalResult :=
  let uniqueSignals := dedupSignals signals
  if uniqueSignals.contains URL_CHECKOUT || uniqueSignals.contains DOM_PAYMENT then
    { level := ActivityLevels.TRANSACTION,
      confidence := if uniqueSignals.length > 1 then "high" else "medium",
      reasons := uniqueSignals.filter (fun s => s == URL_CHECKOUT || s == DOM_PAYMENT) }
  else if uniqueSignals.contains URL_EDITOR || uniqueSignals.contains DOM_EDITOR then
    { level := ActivityLevels.UGC, confidence := "medium",
      reasons := uniqueSignals.filter (fun s => s == URL_EDITOR || s == DOM_EDITOR) }
  else if uniqueSignals.contains URL_LOGIN || uniqueSignals.contains URL_SIGNUP ||
      uniqueSignals.contains URL_ACCOUNT || uniqueSignals.contains DOM_PASSWORD then
    { level := ActivityLevels.ACCOUNT, confidence := "high",
      reasons := uniqueSignals.filter
        (fun s => [URL_LOGIN, URL_SIGNUP, URL_ACCOUNT, DOM_PASSWORD].contains s) }
  else
    { level := ActivityLevels.VIEW, confidence := "high", reasons := [PASSIVE] }

/-- `extractUrlSignals` from `src/signals/heuristics.js`: keyword inspection
of the lowercased path ("auth" keywords are weak by design — see C8). -/
def extractUrlSignals (urlStr : String) : List String :=
  match parseURL urlStr with
  | none => []
  | some u =>
    let path := strToLower u.pathname
    (if strIncludes path "checkout" || strIncludes path "cart" ||
        strIncludes path "payment" || strIncludes path "billing"
     then [URL_CHECKOUT] else []) ++
    (if strIncludes path "edit" || strIncludes path "compose" ||
        strIncludes path "write" || strIncludes path "upload"
     then [URL_EDITOR] else []) ++
    (if strIncludes path "login" || strIncludes path "signin" ||
        strIncludes path "auth"
     then [URL_LOGIN]
     else if strIncludes path "signup" || strIncludes path "register" ||
        strIncludes path "join"
     then [URL_SIGNUP]
     else if strIncludes path "account" || strIncludes path "settings" ||
        strIncludes path "profile" || strIncludes path "dashboard"
     then [URL_ACCOUNT]
     else [])

/-! ## OAuth detection rules (`src/unnamed/part_009`, `src/utils/url_path.js`,
`src/utils/url_params.js`, and `detectOAuth` of `src/jobs/classifier_job.js`) -/
def OAUTH_CORE_KEYS : List String :=
  ["client_id", "redirect_uri", "response_type", "scope", "state", "nonce",
   "code_challenge", "code_challenge_method", "id_token_hint", "ui_locales"]

def OAUTH_STRONG_PATHS : List String :=
  ["/authorize", "/oauth/authorize", "/oauth2/authorize",
   "/oauth2/v2.0/authorize", "/v1/authorize", "/consent", "/u/login",
   "/signin-oidc", "/.well-known/openid-configuration"]

/-- `KNOWN_IDP_DOMAIN_PATTERNS`: the six hostname regexes written out as
string tests (`(^|\.)` anchors become an exact match or a dot-led suffix). -/
def isKnownIdpDomain (domain : String) : Bool :=
  domain == "accounts.google.com" ||
  domain == "login.microsoftonline.com" ||
  domain == "appleid.apple.com" ||
  domain == "auth0.com" || strEndsWith domain ".auth0.com" ||
  domain == "okta.com" || strEndsWith domain ".okta.com" ||
  domain == "id.twitch.tv"

/-- `KNOWN_IDP_URL_PATTERNS`: the single anchored URL regex as a string
test. -/
def isKnownIdpUrl (url : String) : Bool :=
  strStartsWith url "https://github.com/login/oauth"

/-- `getNormalizedPath` from `src/utils/url_path.js`: lowercased path with a
trailing slash removed (except for the bare `/`). -/
def getNormalizedPath (urlStr : String) : String :=
  match parseURL urlStr with
  | none => ""
  | some u =>
    let path := strToLower u.pathname
    if path.length > 1 ∧ strEndsWith path "/" then String.mk path.toList.dropLast
    else path

/-- `isStrongAuthPath` from `src/utils/url_path.js`. -/
def isStrongAuthPath (urlStr : String) : Bool :=
  let path := getNormalizedPath urlStr
  if path = "" then false
  else if OAUTH_STRONG_PATHS.contains path then true
  else strEndsWith path "/authorize" || strEndsWith path "/login/oauth/authorize"

/-- `getParamKeys` from `src/utils/url_params.js`: the set of query-parameter
keys (values never read). -/
def getParamKeys (urlStr : String) : List String :=
  match parseURL urlStr with
  | none => []
  | some u => u.searchKeys.foldl setAdd []

structure OAuthResult where
  isOAuth : Bool
  evidence : List String
deriving Repr, DecidableEq

/-- `detectOAuth` from `src/jobs/classifier_job.js`: core params (≥ 2 keys)
OR strong path OR known-IdP domain OR known-IdP URL, collecting the matched
evidence kinds. -/
def detectOAuth (url : String) : OAuthResult :=
  let keys := getParamKeys url
  let matchCount := (keys.filter (fun k => OAUTH_CORE_KEYS.contains k)).length
  let e1 := if matchCount ≥ 2 then [OAUTH_PARAMS] else []
  let e2 := if isStrongAuthPath url then [STRONG_PATH] else []
  let e3 := match getDomain url with
    | some d => if isKnownIdpDomain d then [KNOWN_IDP] else []
    | none => []
  let e4 := if isKnownIdpUrl url then [KNOWN_IDP] else []
  { isOAuth := decide (matchCount ≥ 2) || isStrongAuthPath url ||
      !(e3.isEmpty) || isKnownIdpUrl url,
    evidence := e1 ++ e2 ++ e3 ++ e4 }

/-! ## Classifier (`src/jobs/classifier_job.js`, `classify`) -/

/-- Modelled from the spec: `risk_model.js` (`computeBaseScore`) is not among
the provided sources; the spec fixes the base table view=5, account=30,
ugc=45, transaction=70. -/
def computeBaseScore (level : String) : ℚ :=
  if level = ActivityLevels.TRANSACTION then 70
  else if level = ActivityLevels.UGC then 45
  else if level = ActivityLevels.ACCOUNT then 30
  else 5

/-- Modelled from the spec: the classifier's collaborators that are not among
the provided sources — `evidence_weights.js` (fixed per-kind weights),
`rp_inference.js` (`inferRpFromRedirectUri`, `inferRpFromOpener`,
`inferIdpDomain`, `checkTemporalRoundtrip`, which read the session store) and
the scaling part of `risk_model.js` (`computeRiskScore`,
`computeRiskConfidence`) — are passed in as an environment, so every theorem
below holds for every behaviour of the missing code. -/
structure ClassifyEnv where
  weights : String → ℚ
  rpFromRedirect : String → Option String
  rpFromOpener : Int → Option String
  idpFromUrl : String → Option String
  roundtrip : Option Int → String → String → Bool
  riskScore : ℚ → ℚ → ℚ
  riskConfidence : ℚ → String

/-- The classification context (`{tabId, visitCount, isPinned}`). -/
structure ClassifyCtx where
  tabId : Option Int
  visitCount : Option Int
  isPinned : Bool

/-- The Activity Estimation assembled by `classify`. -/
structure ClassifyResult where
  level : String
  confidence : String
  reasons : List String
  numericConfidence : ℚ
  evidenceFlags : Option (List String)
  rp_domain : Option String
  idp_domain : Option String
  risk_score : ℚ
  risk_confidence : String
  management_state : String
  explanation : String

/-- `buildExplanation` from `src/ui/explanations.js`: one line chosen by
evidence priority. -/
def buildExplanation (evidenceFlags : Option (List String))
    (rp_domain _idp_domain : Option String) : String :=
  match evidenceFlags with
  | none => "Passive browsing activity"
  | some flags =>
    if flags.isEmpty then "Passive browsing activity"
    else if flags.contains SAML_FORM then "SAML SSO form detected (Structure only)"
    else if flags.contains REDIRECT_URI_MATCH then
      (match rp_domain with
       | some rp => if rp ≠ "" then "Login flow for " ++ rp
           else "Standard OAuth redirect detected"
       | none => "Standard OAuth redirect detected")
    else if flags.contains TEMPORAL_CHAIN then "Completed login sequence detected"
    else if flags.contains OPENER_LINK then "Popup login window detected"
    else if flags.contains STRONG_PATH || flags.contains OAUTH_PARAMS then
      "Authentication page structure"
    else if flags.contains KNOWN_IDP then "Identity Provider domain"
    else "Account activity detected"

/-- `validatedSignals`: unknown codes from untrusted callers are dropped. -/
def validateSignals (explicitSignals : List String) : List String :=
  explicitSignals.filter (fun s => SIGNAL_CODES_values.contains s)

/-- The tail of the structural (OAuth/SAML) branch of `classify` (steps
3.6–4.3): finalization with the SAML cap, bucketing, metadata, risk score and
management state. -/
def structuralFields (env : ClassifyEnv) (hasSamlSignal : Bool)
    (fin : FinalizedConfidence) (rpCandidate idpCandidate : Option String)
    (baseReasons : List String) (ctx : ClassifyCtx) : ClassifyResult :=
  let finalConfidence :=
    if hasSamlSignal && !(fin.evidenceFlags.contains TEMPORAL_CHAIN) &&
        !(fin.evidenceFlags.contains REDIRECT_URI_MATCH) then
      min fin.confidence (6/10)
    else fin.confidence
  let rpHeld := if jsTruthyStr rpCandidate then rpCandidate else none
  let idpHeld := if jsTruthyStr idpCandidate then idpCandidate else none
  let finalRp := if jsTruthyStr rpHeld then rpHeld else rpCandidate
  let risk_score := env.riskScore (computeBaseScore ActivityLevels.ACCOUNT) finalConfidence
  { level := ActivityLevels.ACCOUNT,
    confidence := if finalConfidence ≥ 8/10 then "high"
      else if finalConfidence ≥ 5/10 then "medium" else "low",
    reasons := baseReasons ++
      [if hasSamlSignal then "saml_detected" else "oauth_detected"],
    numericConfidence := finalConfidence,
    evidenceFlags := some fin.evidenceFlags,
    rp_domain := rpHeld,
    idp_domain := idpHeld,
    risk_score := risk_score,
    risk_confidence := env.riskConfidence finalConfidence,
    management_state := mapToManagementState ActivityLevels.ACCOUNT risk_score
      finalConfidence finalRp fin.evidenceFlags (ctx.visitCount.getD 0) ctx.isPinned,
    explanation := buildExplanation (some fin.evidenceFlags) finalRp idpCandidate }

/-- The structural (OAuth/SAML) branch of `classify` (steps 3.1–3.5):
evidence seeding, RP/IdP inference and round-trip consultation, then
`structuralFields`. -/
def classifyStructural (env : ClassifyEnv) (url : String) (hasSamlSignal : Bool)
    (base : EvalResult) (oauthResult : OAuthResult) (idpCandidate : Option String)
    (ctx : ClassifyCtx) : ClassifyResult :=
  let st0 := createConfidenceState
  let st1 := if oauthResult.isOAuth then
      oauthResult.evidence.foldl (fun st ev => addEvidenceOnce st ev (env.weights ev)) st0
    else st0
  let st2 := if hasSamlSignal then addEvidenceOnce st1 SAML_FORM (4/10) else st1
  let rpFromRedirect := env.rpFromRedirect url
  let rpFromOpener :=
    if jsTruthyNum ctx.tabId then env.rpFromOpener (ctx.tabId.getD 0) else none
  let rc : Option String × ConfidenceState :=
    if jsTruthyStr rpFromRedirect then
      (rpFromRedirect,
       if jsTruthyStr rpFromOpener ∧ rpFromRedirect = rpFromOpener then
         addEvidenceOnce st2 REDIRECT_URI_MATCH (env.weights REDIRECT_URI_MATCH)
       else st2)
    else if jsTruthyStr rpFromOpener then (rpFromOpener, st2)
    else (none, st2)
  let rpCandidate := rc.1
  let st3 := if jsTruthyStr rpFromOpener then
      addEvidenceOnce rc.2 OPENER_LINK (env.weights OPENER_LINK)
    else rc.2
  let st4 :=
    if jsTruthyStr rpCandidate ∧ jsTruthyStr idpCandidate then
      (if env.roundtrip ctx.tabId (rpCandidate.getD "") (idpCandidate.getD "") then
        addEvidenceOnce st3 TEMPORAL_CHAIN (env.weights TEMPORAL_CHAIN)
      else st3)
    else st3
  structuralFields env hasSamlSignal (finalizeConfidence st4) rpCandidate
    idpCandidate base.reasons ctx

/-- The heuristic (no-OAuth, no-SAML) branch of `classify`: the keyword
downgrade guard and the numeric-confidence tiers. -/
def classifyHeuristic (env : ClassifyEnv) (base : EvalResult)
    (idpCandidate : Option String) (ctx : ClassifyCtx) : ClassifyResult :=
  let t : String × String × ℚ × List String :=
    if base.level = ActivityLevels.ACCOUNT then
      (if base.reasons.all (fun r => [URL_LOGIN, URL_ACCOUNT, URL_SIGNUP].contains r) &&
          !(base.reasons.any (fun r => strStartsWith r "dom_")) then
        (ActivityLevels.VIEW, "low", 3/10, [PASSIVE, "ambiguous_auth_keyword"])
      else
        (base.level, base.confidence,
         if base.confidence = "high" then 8/10 else 5/10, base.reasons))
    else
      (base.level, base.confidence,
       if base.confidence = "high" then 8/10
       else if base.confidence = "medium" then 5/10 else 3/10,
       base.reasons)
  let risk_score := env.riskScore (computeBaseScore t.1) t.2.2.1
  { level := t.1,
    confidence := t.2.1,
    reasons := t.2.2.2,
    numericConfidence := t.2.2.1,
    evidenceFlags := none,
    rp_domain := none,
    idp_domain := none,
    risk_score := risk_score,
    risk_confidence := env.riskConfidence t.2.2.1,
    management_state := mapToManagementState t.1 risk_score t.2.2.1 none []
      (ctx.visitCount.getD 0) ctx.isPinned,
    explanation := buildExplanation none none idpCandidate }

/-- `classify` from `src/jobs/classifier_job.js`: validate signals, run the
base heuristics, then either the structural OAuth/SAML overlay or the
heuristic branch with the keyword guard. -/
def classify (env : ClassifyEnv) (url : String) (explicitSignals : List String)
    (ctx : ClassifyCtx) : ClassifyResult :=
  if (detectOAuth url).isOAuth ||
      (validateSignals explicitSignals).contains DOM_SAML then
    classifyStructural env url ((validateSignals explicitSignals).contains DOM_SAML)
      (evaluateSignals (extractUrlSignals url ++ validateSignals explicitSignals))
      (detectOAuth url) (env.idpFromUrl url) ctx
  else
    classifyHeuristic env
      (evaluateSignals (extractUrlSignals url ++ validateSignals explicitSignals))
      (env.idpFromUrl url) ctx

/-- A concrete environment for the classifier witnesses. -/
def trivialEnv : ClassifyEnv :=
  { weights := fun _ => 1/2,
    rpFromRedirect := fun _ => none,
    rpFromOpener := fun _ => none,
    idpFromUrl := fun _ => none,
    roundtrip := fun _ _ _ => false,
    riskScore := fun base _ => base,
    riskConfidence := fun _ => "medium" }

/-! ## Theorems -/

lemma jsParseIntSucceeds_www : jsParseIntSucceeds "www" = false := by decide

lemma jsParseIntSucceeds_m : jsParseIntSucceeds "m" = false := by decide

lemma jsParseIntSucceeds_mobile : jsParseIntSucceeds "mobile" = false := by decide

/-- Claim C10: the domain-reduction heuristic `getETLDPlusOne` strips at most one
leading label, and only when the lowercased hostname has three or more
dot-separated labels whose first label is exactly `www`, `m` or `mobile`;
every other hostname is returned lowercased but otherwise unchanged.  In
particular `accounts.google.com` is stored as-is, so the reduction is not a
full public-suffix normalization. -/
theorem getETLDPlusOne_spec :
    (∀ hostname : String, getETLDPlusOne hostname = specDomainReduction hostname) ∧
    getETLDPlusOne "accounts.google.com" = "accounts.google.com" := by
  constructor
  · intro hostname
    unfold getETLDPlusOne specDomainReduction
    by_cases h0 : hostname = ""
    · subst h0; decide
    · rw [if_neg h0]
      by_cases hall : ((strSplitOn '.' (strToLower hostname)).all fun p => jsParseIntSucceeds p) = true
      · rw [if_pos hall]
        have hfirst : ¬ ((strSplitOn '.' (strToLower hostname)).length ≥ 3 ∧
            ((strSplitOn '.' (strToLower hostname)).headD "" = "www" ∨
             (strSplitOn '.' (strToLower hostname)).headD "" = "m" ∨
             (strSplitOn '.' (strToLower hostname)).headD "" = "mobile")) := by
          rintro ⟨hlen, hhead⟩
          cases hp : strSplitOn '.' (strToLower hostname) with
          | nil => rw [hp] at hlen; simp at hlen
          | cons a l =>
            rw [hp] at hall hhead
            have ha : jsParseIntSucceeds a = true := by
              have := List.all_eq_true.mp hall a (by simp)
              simpa using this
            simp only [List.headD_cons] at hhead
            rcases hhead with h | h | h <;> rw [h] at ha
            · rw [jsParseIntSucceeds_www] at ha; exact absurd ha (by simp)
            · rw [jsParseIntSucceeds_m] at ha; exact absurd ha (by simp)
            · rw [jsParseIntSucceeds_mobile] at ha; exact absurd ha (by simp)
        rw [if_neg hfirst]
      · rw [if_neg hall]
        by_cases hlen : (strSplitOn '.' (strToLower hostname)).length > 2
        · rw [if_pos hlen]
          by_cases hw : ((strSplitOn '.' (strToLower hostname)).headD "" = "www" ∨
              (strSplitOn '.' (strToLower hostname)).headD "" = "m" ∨
              (strSplitOn '.' (strToLower hostname)).headD "" = "mobile")
          · rw [if_pos hw, if_pos ⟨by omega, hw⟩]
          · rw [if_neg hw, if_neg (fun h => hw h.2)]
        · rw [if_neg hlen, if_neg (fun h => absurd h.1 (by omega))]
  · decide

lemma clamp01_le_of_le {x c : ℚ} (hc : 0 ≤ c) (hx : x ≤ c) : clamp01 x ≤ c := by
  unfold clamp01
  exact max_le hc ((min_le_right 1 x).trans hx)

lemma setAdd_mem {s : List String} {x t : String} (ht : t ∈ setAdd s x) :
    t ∈ s ∨ t = x := by
  unfold setAdd at ht
  split at ht
  · exact Or.inl ht
  · rcases List.mem_append.mp ht with h | h
    · exact Or.inl h
    · exact Or.inr (List.mem_singleton.mp h)

lemma addEvidenceOnce_evidenceSet_mem {st : ConfidenceState} {k : String} {w : ℚ} {t : String}
    (ht : t ∈ (addEvidenceOnce st k w).evidenceSet) : t ∈ st.evidenceSet ∨ t = k := by
  unfold addEvidenceOnce at ht
  by_cases hk : k = TRANSITION_QUALIFIERS
  · rw [if_pos hk] at ht
    exact setAdd_mem ht
  · rw [if_neg hk] at ht
    split at ht
    · exact Or.inl ht
    · exact setAdd_mem ht

lemma foldl_evidence_noStrong {adds : List (String × ℚ)} {st : ConfidenceState}
    (hadds : ∀ p ∈ adds, p.1 ∉ strongTypes)
    (hst : ∀ t ∈ st.evidenceSet, t ∉ strongTypes) :
    ∀ t ∈ (adds.foldl (fun st p => addEvidenceOnce st p.1 p.2) st).evidenceSet,
      t ∉ strongTypes := by
  induction adds generalizing st with
  | nil => exact hst
  | cons p rest ih =>
    simp only [List.foldl_cons]
    refine ih (fun q hq => hadds q (List.mem_cons_of_mem _ hq)) ?_
    intro t ht
    rcases addEvidenceOnce_evidenceSet_mem ht with h | h
    · exact hst t h
    · subst h; exact hadds p (List.mem_cons_self _ _)

lemma addEvidenceOnce_aux_le {st : ConfidenceState} {k : String} {w : ℚ} (hw : 0 ≤ w) :
    st.auxScore ≤ (addEvidenceOnce st k w).auxScore := by
  unfold addEvidenceOnce
  split
  · simp only
    split
    · next h => exact le_min (by linarith) (le_of_lt h)
    · exact le_refl _
  · split <;> simp

lemma foldl_aux_le {adds : List (String × ℚ)} {st : ConfidenceState}
    (hadds : ∀ p ∈ adds, 0 ≤ p.2) :
    st.auxScore ≤ (adds.foldl (fun st p => addEvidenceOnce st p.1 p.2) st).auxScore := by
  induction adds generalizing st with
  | nil => exact le_refl _
  | cons p rest ih =>
    simp only [List.foldl_cons]
    exact (addEvidenceOnce_aux_le (hadds p (List.mem_cons_self _ _))).trans
      (ih (fun q hq => hadds q (List.mem_cons_of_mem _ hq)))

lemma addEvidenceOnce_weak_pos {st : ConfidenceState} {w : ℚ}
    (hw : 0 < w) (hst : 0 ≤ st.auxScore) :
    0 < (addEvidenceOnce st TRANSITION_QUALIFIERS w).auxScore := by
  unfold addEvidenceOnce
  rw [if_pos rfl]
  simp only
  split
  · exact lt_min (by linarith) (by norm_num [MAX_BONUS])
  · next h => push_neg at h; calc (0:ℚ) < MAX_BONUS := by norm_num [MAX_BONUS]
              _ ≤ st.auxScore := h

/-- Claim C1 counterexample: the claim as stated is false on the code.  With
the single call `add_evidence(OAUTH_PARAMS, 0.9)` — weight in `[0,1]`, no
designated strong kind ever added, weak-qualifier sum zero — `finalize`
returns confidence `0.9 > 0.6`: the safety ceiling is applied only when the
weak (aux) sum is positive. -/
theorem finalize_weakOnly_claim_false :
    ¬ (∀ adds : List (String × ℚ),
        (∀ p ∈ adds, 0 ≤ p.2 ∧ p.2 ≤ 1) →
        (∀ p ∈ adds, p.1 ∉ strongTypes) →
        (finalizeConfidence (applyEvidence adds)).confidence ≤ CAP_WITHOUT_STRONG_EVIDENCE) := by
  intro h
  have h1 := h [(OAUTH_PARAMS, 9/10)] (by norm_num) (by decide)
  have h2 : (finalizeConfidence (applyEvidence [(OAUTH_PARAMS, 9/10)])).confidence = 9/10 := by
    have e1 : applyEvidence [(OAUTH_PARAMS, 9/10)] =
        { score := 9/10, evidenceSet := [OAUTH_PARAMS], auxScore := 0 } := by
      simp [applyEvidence, addEvidenceOnce, createConfidenceState, setAdd,
        OAUTH_PARAMS, TRANSITION_QUALIFIERS]
    rw [e1]
    unfold finalizeConfidence
    simp only [strongTypes, REDIRECT_URI_MATCH, STRONG_PATH, OPENER_LINK, TEMPORAL_CHAIN,
      OAUTH_PARAMS, clamp01, List.any_cons, List.any_nil, List.contains_cons,
      List.contains_nil, String.reduceEq, Bool.or_false, Bool.or_self, beq_iff_eq]
    norm_num
  rw [h2] at h1
  norm_num [CAP_WITHOUT_STRONG_EVIDENCE] at h1

/-- Claim C1 (amended): for every sequence of `add_evidence` calls with
weights in `[0,1]` in which none of the four designated strong kinds is ever
added *and the weak-qualifier (aux) sum is positive* (at least one
weak-qualifier addition has positive weight), `finalize` returns a confidence
of at most the safety ceiling 0.6.  (Without a positive weak sum the cap is
not applied, as the counterexample shows.) -/
theorem finalize_weakOnly_capped (adds : List (String × ℚ))
    (h01 : ∀ p ∈ adds, 0 ≤ p.2 ∧ p.2 ≤ 1)
    (hns : ∀ p ∈ adds, p.1 ∉ strongTypes)
    (hweak : ∃ p ∈ adds, p.1 = TRANSITION_QUALIFIERS ∧ 0 < p.2) :
    (finalizeConfidence (applyEvidence adds)).confidence ≤ CAP_WITHOUT_STRONG_EVIDENCE := by
  obtain ⟨p, hp, hTQ, hpos⟩ := hweak
  obtain ⟨l1, l2, rfl⟩ := List.append_of_mem hp
  have hnn : ∀ q ∈ l1 ++ p :: l2, 0 ≤ q.2 := fun q hq => (h01 q hq).1
  -- aux score after the prefix is nonnegative
  have haux1 : (0:ℚ) ≤ (l1.foldl (fun st p => addEvidenceOnce st p.1 p.2)
      createConfidenceState).auxScore := by
    have := @foldl_aux_le l1 createConfidenceState
      (fun q hq => hnn q (List.mem_append_left _ hq))
    simpa [createConfidenceState] using this
  -- aux score is positive after processing p
  have haux2 : 0 < (addEvidenceOnce
      (l1.foldl (fun st p => addEvidenceOnce st p.1 p.2) createConfidenceState)
      p.1 p.2).auxScore := by
    rw [hTQ]
    exact addEvidenceOnce_weak_pos hpos haux1
  -- hence positive at the end
  have haux3 : 0 < (applyEvidence (l1 ++ p :: l2)).auxScore := by
    have hmono := @foldl_aux_le l2
      (addEvidenceOnce
        (l1.foldl (fun st p => addEvidenceOnce st p.1 p.2) createConfidenceState) p.1 p.2)
      (fun q hq => hnn q (List.mem_append_right _ (List.mem_cons_of_mem _ hq)))
    have hunfold : applyEvidence (l1 ++ p :: l2) =
        l2.foldl (fun st p => addEvidenceOnce st p.1 p.2)
          (addEvidenceOnce
            (l1.foldl (fun st p => addEvidenceOnce st p.1 p.2) createConfidenceState) p.1 p.2) := by
      simp [applyEvidence, List.foldl_append]
    rw [hunfold]
    exact lt_of_lt_of_le haux2 hmono
  -- the evidence set contains no designated strong kind
  have hset : ∀ t ∈ (applyEvidence (l1 ++ p :: l2)).evidenceSet, t ∉ strongTypes :=
    foldl_evidence_noStrong hns (by simp [createConfidenceState])
  have hstrong : (strongTypes.any
      (fun t => (applyEvidence (l1 ++ p :: l2)).evidenceSet.contains t)) = false := by
    rw [List.any_eq_false]
    intro t ht hc
    exact hset t (List.elem_iff.mp hc) ht
  -- finalize takes the capped branch
  unfold finalizeConfidence
  rw [hstrong]
  simp only [Bool.false_eq_true, not_false_eq_true, true_and]
  rw [if_pos haux3]
  exact clamp01_le_of_le (by norm_num [CAP_WITHOUT_STRONG_EVIDENCE]) (min_le_right _ _)

/-- Witness for the amended C1 theorem at the concrete call sequence
`[add_evidence(TRANSITION_QUALIFIERS, 0.5)]`. -/
theorem finalize_weakOnly_capped_witness :
    (finalizeConfidence (applyEvidence [(TRANSITION_QUALIFIERS, 1/2)])).confidence ≤
      CAP_WITHOUT_STRONG_EVIDENCE :=
  finalize_weakOnly_capped [(TRANSITION_QUALIFIERS, 1/2)]
    (by norm_num) (by decide)
    ⟨(TRANSITION_QUALIFIERS, 1/2), by simp, rfl, by norm_num⟩

lemma findForwardAux_decomp {rp idp : String} {prev f : RtEvent}
    {l tl : List RtEvent}
    (h : findForwardAux rp idp prev l = some (f, tl)) :
    ∃ l0 a, prev :: l = l0 ++ a :: f :: tl ∧ a.domain = rp ∧ f.domain = idp := by
  induction l generalizing prev with
  | nil => simp [findForwardAux] at h
  | cons e rest ih =>
    unfold findForwardAux at h
    split at h
    · next hcond =>
      obtain ⟨rfl, rfl⟩ : f = e ∧ tl = rest := by
        constructor <;> [skip; skip] <;> cases h <;> rfl
      exact ⟨[], prev, rfl, hcond.2, hcond.1⟩
    · obtain ⟨l0, a, heq, ha, hf⟩ := ih h
      exact ⟨prev :: l0, a, by rw [List.cons_append, ← heq], ha, hf⟩

lemma find?_decomp {p : RtEvent → Bool} {l : List RtEvent} {b : RtEvent}
    (h : l.find? p = some b) :
    ∃ l2 l3, l = l2 ++ b :: l3 ∧ p b = true := by
  induction l with
  | nil => simp at h
  | cons e rest ih =>
    rw [List.find?_cons] at h
    split at h
    · next hp => cases h; exact ⟨[], rest, rfl, hp⟩
    · obtain ⟨l2, l3, rfl, hb⟩ := ih h
      exact ⟨e :: l2, l3, rfl, hb⟩

lemma isRoundtrip_eq_of_legs {rp idp : String} {events : List RtEvent}
    {ttlMs : Int} {f b : RtEvent}
    (hlegs : roundtripLegs rp idp events = some (f, b)) :
    isRoundtrip rp idp events ttlMs =
      (if b.ts - f.ts > ttlMs then false
       else if jsTruthyNum f.tabId && jsTruthyNum b.tabId then
         if f.tabId == b.tabId then true
         else decide (b.openerTabId = f.tabId ∨ f.openerTabId = b.tabId)
       else true) := by
  unfold isRoundtrip
  rw [hlegs]

lemma isRoundtrip_legs_of_true {rp idp : String} {events : List RtEvent}
    {ttlMs : Int} (h : isRoundtrip rp idp events ttlMs = true) :
    ∃ f b, roundtripLegs rp idp events = some (f, b) ∧ b.ts - f.ts ≤ ttlMs := by
  unfold isRoundtrip at h
  split at h
  · simp at h
  · next f b hfb =>
    refine ⟨f, b, hfb, ?_⟩
    by_cases httl : b.ts - f.ts > ttlMs
    · rw [if_pos httl] at h; simp at h
    · omega

lemma roundtripLegs_inv {rp idp : String} {events : List RtEvent} {f b : RtEvent}
    (h : roundtripLegs rp idp events = some (f, b)) :
    ∃ x rest tl, sortByTs events = x :: rest ∧
      findForwardAux rp idp x rest = some (f, tl) ∧
      tl.find? (fun e => e.domain == rp) = some b := by
  unfold roundtripLegs at h
  split at h
  · simp at h
  · split at h
    · simp at h
    · next x rest heq =>
      split at h
      · simp at h
      · next f' tl hfwd =>
        split at h
        · simp at h
        · next b' hback =>
          obtain ⟨rfl, rfl⟩ : f = f' ∧ b = b' := by
            cases h; exact ⟨rfl, rfl⟩
          exact ⟨x, rest, tl, heq, hfwd, hback⟩

/-- Claim C2: `isRoundtrip` accepts only if, in the timestamp-sorted event
list, some event with the IdP domain is immediately preceded by an event with
the RP domain (the forward leg), a strictly later event has the RP domain
(the backward leg), and the backward leg's timestamp minus the forward leg's
is at most the TTL (whose default is 30 s).  In particular an IdP visit not
immediately preceded by the RP is rejected. -/
theorem isRoundtrip_requires_adjacent_forward_leg
    (rp idp : String) (events : List RtEvent) (ttlMs : Int)
    (h : isRoundtrip rp idp events ttlMs = true) :
    (∃ l0 a f l2 b l3,
      sortByTs events = l0 ++ a :: f :: (l2 ++ b :: l3) ∧
      a.domain = rp ∧ f.domain = idp ∧ b.domain = rp ∧
      b.ts - f.ts ≤ ttlMs) ∧ DEFAULT_TTL_MS = 30000 := by
  refine ⟨?_, rfl⟩
  obtain ⟨f, b, hlegs, httl⟩ := isRoundtrip_legs_of_true h
  obtain ⟨x, rest, tl, hsort, hfwd, hback⟩ := roundtripLegs_inv hlegs
  obtain ⟨l0, a, heq, ha, hf⟩ := findForwardAux_decomp hfwd
  obtain ⟨l2, l3, rfl, hb⟩ := find?_decomp hback
  exact ⟨l0, a, f, l2, b, l3, by rw [hsort, heq], ha, hf, by simpa using hb, httl⟩

/-- Witness for C2 at a concrete accepted round-trip. -/
theorem isRoundtrip_requires_adjacent_forward_leg_witness :
    (∃ l0 a f l2 b l3,
      sortByTs rtWitnessEvents = l0 ++ a :: f :: (l2 ++ b :: l3) ∧
      a.domain = "rp.example" ∧ f.domain = "idp.example" ∧ b.domain = "rp.example" ∧
      b.ts - f.ts ≤ 30000) ∧ DEFAULT_TTL_MS = 30000 :=
  isRoundtrip_requires_adjacent_forward_leg "rp.example" "idp.example"
    rtWitnessEvents 30000 (by decide)

/-- Claim C3: when both legs found by `isRoundtrip` carry JS-truthy tab
identifiers and those identifiers differ, the round-trip is accepted exactly
when the TTL passes and one leg's snapshotted opener equals the other leg's
tab (either direction); when either leg lacks a (truthy) tab identifier the
tab-context check is skipped entirely and acceptance depends only on the
TTL. -/
theorem isRoundtrip_tab_guard
    (rp idp : String) (events : List RtEvent) (ttlMs : Int) (f b : RtEvent)
    (hlegs : roundtripLegs rp idp events = some (f, b)) :
    ((jsTruthyNum f.tabId = true ∧ jsTruthyNum b.tabId = true ∧ f.tabId ≠ b.tabId) →
      (isRoundtrip rp idp events ttlMs = true ↔
        (b.ts - f.ts ≤ ttlMs ∧ (b.openerTabId = f.tabId ∨ f.openerTabId = b.tabId)))) ∧
    ((¬ (jsTruthyNum f.tabId = true ∧ jsTruthyNum b.tabId = true)) →
      (isRoundtrip rp idp events ttlMs = true ↔ b.ts - f.ts ≤ ttlMs)) := by
  rw [@isRoundtrip_eq_of_legs rp idp events ttlMs f b hlegs]
  constructor
  · rintro ⟨hft, hbt, hne⟩
    by_cases httl : b.ts - f.ts > ttlMs
    · rw [if_pos httl]
      constructor
      · intro hfalse; simp at hfalse
      · rintro ⟨hle, _⟩; omega
    · rw [if_neg httl, hft, hbt]
      simp only [Bool.and_self, if_true]
      rw [if_neg (by simpa using hne)]
      constructor
      · intro hd
        exact ⟨by omega, of_decide_eq_true hd⟩
      · rintro ⟨_, hlink⟩
        exact decide_eq_true hlink
  · intro hmiss
    by_cases httl : b.ts - f.ts > ttlMs
    · rw [if_pos httl]
      constructor
      · intro hfalse; simp at hfalse
      · intro hle; omega
    · rw [if_neg httl]
      have hand : (jsTruthyNum f.tabId && jsTruthyNum b.tabId) = false := by
        cases hft : jsTruthyNum f.tabId with
        | false => simp
        | true =>
          cases hbt : jsTruthyNum b.tabId with
          | false => simp
          | true => exact absurd ⟨hft, hbt⟩ hmiss
      rw [hand]
      simp only [Bool.false_eq_true, if_false]
      constructor
      · intro _; omega
      · intro _; trivial

/-- Witness for C3: with differing tabs and a valid opener link in one
direction, the concrete round-trip is accepted. -/
theorem isRoundtrip_tab_guard_witness :
    isRoundtrip "rp.example" "idp.example" rtTabWitnessEvents 30000 = true ↔
      ((20:Int) - 10 ≤ 30000 ∧
        ((some 1 : Option Int) = some 1 ∨ (none : Option Int) = some 2)) :=
  (isRoundtrip_tab_guard "rp.example" "idp.example" rtTabWitnessEvents 30000
    { ts := 10, domain := "idp.example", tabId := some 1, openerTabId := none }
    { ts := 20, domain := "rp.example", tabId := some 2, openerTabId := some 1 }
    (by decide)).1 ⟨by decide, by decide, by decide⟩

/-- Claim C5: for every input, the management-state mapping equals the spec's
priority-ordered decision table (pin; high-confidence transaction;
high-confidence account with RP or redirect/round-trip corroboration;
level-not-view with decent confidence and score ≥ 40; frequency ≥ 100 with
confidence > 0.3; view with ≥ 200 visits; otherwise none) — and in
particular a pinned domain always yields `pinned`. -/
theorem mapToManagementState_matches_table :
    (∀ (level : String) (score confidence : ℚ) (rp_domain : Option String)
        (evidenceFlags : List String) (seenCount : Int) (isPinned : Bool),
      mapToManagementState level score confidence rp_domain evidenceFlags seenCount isPinned =
        specManagementDecisionTable level score confidence rp_domain evidenceFlags
          seenCount isPinned) ∧
    (∀ (level : String) (score confidence : ℚ) (rp_domain : Option String)
        (evidenceFlags : List String) (seenCount : Int),
      mapToManagementState level score confidence rp_domain evidenceFlags seenCount true =
        MANAGEMENT_STATE.PINNED) := by
  constructor
  · intro level score confidence rp_domain evidenceFlags seenCount isPinned
    unfold mapToManagementState specManagementDecisionTable
    simp only [Bool.or_eq_true]
  · intro level score confidence rp_domain evidenceFlags seenCount
    rfl

/-- Claim C6: for every domain whose effective activity level is view, whose
total visit count is 250 and which has no user override (not ignored, pinned,
whitelisted, or categorized), the risk computation persists a score of
exactly 15 — the view base 5 plus the single +10 tier for more than 200
visits, with no +5 tier stacked on top. -/
theorem risk_view_250_visits_score_15 (activity : Option ActivityStateRec)
    (domainState : DomainStateRec) (override : Option UserOverride)
    (hlevel : effectiveLevel activity = ActivityLevels.VIEW)
    (hvisits : domainState.visit_count_total = 250)
    (hig : ovIgnored override = false)
    (hpin : ovPinned override = false)
    (hwl : ovWhitelisted override = false)
    (hcat : ovCategory override = none) :
    (updateRiskForDomain_record activity (some domainState) override).score = 15 := by
  unfold updateRiskForDomain_record
  rw [if_neg (by rw [hig]; exact Bool.false_ne_true)]
  rw [hlevel, hcat]
  simp +decide [effectiveVisits, hvisits, ActivityLevels.VIEW, ActivityLevels.TRANSACTION,
    ActivityLevels.UGC, ActivityLevels.ACCOUNT, hwl, hpin, min_def, max_def]
  norm_num

/-- Witness for C6 at a concrete input: no activity record (defaults to
view), 250 total visits, no override. -/
theorem risk_view_250_visits_score_15_witness :
    (updateRiskForDomain_record none (some { visit_count_total := 250 }) none).score = 15 :=
  risk_view_250_visits_score_15 none { visit_count_total := 250 } none rfl rfl rfl rfl rfl rfl

lemma filter_imp_length_le {α : Type} (l : List α) (p q : α → Bool)
    (h : ∀ k, p k = true → q k = true) :
    (l.filter p).length ≤ (l.filter q).length := by
  induction l with
  | nil => exact Nat.le_refl _
  | cons a l' ih =>
    simp only [List.filter_cons]
    cases hp : p a with
    | true =>
      rw [h a hp]
      exact Nat.succ_le_succ ih
    | false =>
      cases hq : q a with
      | true => exact Nat.le_succ_of_le ih
      | false => exact ih

lemma filter_cons_notMem_lt (l : List Int) (t : Int) (visited : List Int)
    (htl : t ∈ l) (htv : t ∉ visited) :
    (l.filter (fun k => decide (k ∉ (t :: visited)))).length <
    (l.filter (fun k => decide (k ∉ visited))).length := by
  induction l with
  | nil => cases htl
  | cons a l' ih =>
    have hmono : (l'.filter (fun k => decide (k ∉ (t :: visited)))).length ≤
        (l'.filter (fun k => decide (k ∉ visited))).length := by
      refine filter_imp_length_le l' _ _ (fun k hk => ?_)
      have := of_decide_eq_true hk
      exact decide_eq_true (fun hv => this (List.mem_cons_of_mem _ hv))
    rcases List.mem_cons.mp htl with rfl | hmem
    · simp only [List.filter_cons]
      rw [show (decide (t ∉ (t :: visited))) = false by simp,
          show (decide (t ∉ visited)) = true by simpa using htv]
      simpa using Nat.lt_succ_of_le hmono
    · simp only [List.filter_cons]
      by_cases h2 : a ∉ t :: visited
      · have h1 : a ∉ visited := fun hv => h2 (List.mem_cons_of_mem _ hv)
        rw [decide_eq_true h2, decide_eq_true h1]
        simpa using Nat.succ_lt_succ (ih hmem)
      · rw [decide_eq_false h2]
        by_cases h1 : a ∉ visited
        · rw [decide_eq_true h1]
          simpa using Nat.lt_succ_of_lt (ih hmem)
        · rw [decide_eq_false h1]
          exact ih hmem

lemma mem_keys_of_lookupTab {g : List (Int × TabNode)} {t : Int} {n : TabNode}
    (h : lookupTab g t = some n) : t ∈ g.map Prod.fst := by
  unfold lookupTab at h
  cases hf : g.find? (fun p => p.1 == t) with
  | none => rw [hf] at h; cases h
  | some p =>
    have hp := List.find?_some hf
    have hmem := List.mem_of_find?_eq_some hf
    have : p.1 = t := by simpa using hp
    subst this
    exact List.mem_map_of_mem Prod.fst hmem

lemma resolveContextIdAux_success (g : List (Int × TabNode)) :
    ∀ (fuel : Nat) (t : Int) (visited : List Int),
      ((g.map Prod.fst).filter (fun k => decide (k ∉ visited))).length < fuel →
      ∃ r vis, resolveContextIdAux g fuel t visited = some (r, vis) ∧
        (visited.Nodup → vis.Nodup) ∧ ∃ pre, vis = pre ++ visited := by
  intro fuel
  induction fuel with
  | zero => intro t visited h; omega
  | succ fuel ih =>
    intro t visited hlt
    by_cases hv : t ∈ visited
    · refine ⟨t, visited, ?_, fun h => h, [], rfl⟩
      simp [resolveContextIdAux, hv]
    · cases hl : lookupTab g t with
      | none =>
        refine ⟨t, t :: visited, ?_, fun h => List.nodup_cons.mpr ⟨hv, h⟩, [t], rfl⟩
        simp [resolveContextIdAux, hv, hl]
      | some node =>
        cases hop : node.openerTabId with
        | none =>
          refine ⟨t, t :: visited, ?_, fun h => List.nodup_cons.mpr ⟨hv, h⟩, [t], rfl⟩
          simp [resolveContextIdAux, hv, hl, hop]
        | some op =>
          by_cases hz : op = 0
          · refine ⟨t, t :: visited, ?_, fun h => List.nodup_cons.mpr ⟨hv, h⟩, [t], rfl⟩
            simp [resolveContextIdAux, hv, hl, hop, hz]
          · have hkey : t ∈ g.map Prod.fst := mem_keys_of_lookupTab hl
            have hdec := filter_cons_notMem_lt (g.map Prod.fst) t visited hkey hv
            obtain ⟨r, vis, hres, hnd, pre, hpre⟩ :=
              ih op (t :: visited) (by omega)
            refine ⟨r, vis, ?_,
              fun h => hnd (List.nodup_cons.mpr ⟨hv, h⟩),
              pre ++ [t], by rw [hpre]; simp⟩
            simpa [resolveContextIdAux, hv, hl, hop, hz] using hres

/-- Claim C9: for every finite tab graph (cyclic opener edges included) and
every starting tab id, opener-chain resolution with fuel `|graph| + 1`
terminates with a result whose visited trace never contains a tab id twice;
and whenever the walk reaches an already-visited tab id (a cycle), that id is
returned as its own root instead of looping. -/
theorem resolveContextId_terminates_cycle_safe (g : List (Int × TabNode)) :
    (∀ t : Int, ∃ r vis,
      resolveContextIdAux g (g.length + 1) t [] = some (r, vis) ∧ vis.Nodup) ∧
    (∀ (fuel : Nat) (t : Int) (visited : List Int),
      0 < fuel → t ∈ visited →
      resolveContextIdAux g fuel t visited = some (t, visited)) := by
  constructor
  · intro t
    have hlen : ((g.map Prod.fst).filter
        (fun k => decide (k ∉ ([] : List Int)))).length < g.length + 1 := by
      calc ((g.map Prod.fst).filter (fun k => decide (k ∉ ([] : List Int)))).length
          ≤ (g.map Prod.fst).length := List.length_filter_le _ _
        _ = g.length := List.length_map _ _
        _ < g.length + 1 := Nat.lt_succ_self _
    obtain ⟨r, vis, hres, hnd, _⟩ := resolveContextIdAux_success g (g.length + 1) t [] hlen
    exact ⟨r, vis, hres, hnd List.nodup_nil⟩
  · intro fuel t visited hfuel hvis
    cases fuel with
    | zero => omega
    | succ fuel =>
      unfold resolveContextIdAux
      rw [if_pos hvis]

/-- Witness for C9 on the concrete cyclic graph: revisiting tab 1 returns
tab 1 as its own root. -/
theorem resolveContextId_terminates_cycle_safe_witness :
    resolveContextIdAux cycleTabGraph 1 1 [1] = some (1, [1]) :=
  (resolveContextId_terminates_cycle_safe cycleTabGraph).2 1 1 [1]
    (by decide) (by decide)

lemma insertByKey_perm {α : Type} (key : α → Int) (e : α) (l : List α) :
    (insertByKey key e l).Perm (e :: l) := by
  induction l with
  | nil => exact List.Perm.refl _
  | cons x xs ih =>
    unfold insertByKey
    split
    · exact List.Perm.refl _
    · exact (List.Perm.cons x ih).trans (List.Perm.swap e x xs)

lemma sortByKey_perm {α : Type} (key : α → Int) (l : List α) :
    (sortByKey key l).Perm l := by
  induction l with
  | nil => exact List.Perm.refl _
  | cons x xs ih =>
    unfold sortByKey
    exact (insertByKey_perm key x (sortByKey key xs)).trans (List.Perm.cons x ih)

lemma mem_insertByKey {α : Type} {key : α → Int} {e a : α} {l : List α} :
    a ∈ insertByKey key e l ↔ a = e ∨ a ∈ l := by
  rw [(insertByKey_perm key e l).mem_iff, List.mem_cons]

lemma pairwise_insertByKey {α : Type} {key : α → Int} {e : α} {l : List α}
    (h : l.Pairwise (fun a b => key a ≤ key b)) :
    (insertByKey key e l).Pairwise (fun a b => key a ≤ key b) := by
  induction l with
  | nil => simp [insertByKey]
  | cons x xs ih =>
    unfold insertByKey
    rcases List.pairwise_cons.mp h with ⟨hx, hxs⟩
    split
    · next hle =>
      refine List.pairwise_cons.mpr ⟨?_, h⟩
      intro b hb
      rcases List.mem_cons.mp hb with rfl | hb'
      · exact hle
      · exact le_trans hle (hx b hb')
    · next hgt =>
      push_neg at hgt
      refine List.pairwise_cons.mpr ⟨?_, ih hxs⟩
      intro b hb
      rcases mem_insertByKey.mp hb with rfl | hb'
      · exact le_of_lt hgt
      · exact hx b hb'

lemma sortByKey_pairwise {α : Type} (key : α → Int) (l : List α) :
    (sortByKey key l).Pairwise (fun a b => key a ≤ key b) := by
  induction l with
  | nil => simp [sortByKey]
  | cons x xs ih =>
    unfold sortByKey
    exact pairwise_insertByKey ih

lemma lookupAssoc_setAssoc_self {β : Type} (l : List (Int × β)) (k : Int) (v : β) :
    lookupAssoc (setAssoc l k v) k = some v := by
  induction l with
  | nil => simp [setAssoc, lookupAssoc]
  | cons p rest ih =>
    unfold setAssoc
    by_cases hk : p.1 = k
    · rw [if_pos (by simpa using hk)]
      simp [lookupAssoc]
    · rw [if_neg (by simpa using hk)]
      unfold lookupAssoc
      rw [List.find?_cons]
      have hb : (p.1 == k) = false := by simpa using hk
      rw [hb]
      exact ih

lemma mem_setAssoc {β : Type} {l : List (Int × β)} {k : Int} {v : β}
    {p : Int × β} (hp : p ∈ setAssoc l k v) : p = (k, v) ∨ p ∈ l := by
  induction l with
  | nil => simpa [setAssoc] using hp
  | cons q rest ih =>
    unfold setAssoc at hp
    split at hp
    · rcases List.mem_cons.mp hp with rfl | hp'
      · exact Or.inl rfl
      · exact Or.inr (List.mem_cons_of_mem _ hp')
    · rcases List.mem_cons.mp hp with rfl | hp'
      · exact Or.inr (List.mem_cons_self _ _)
      · rcases ih hp' with h | h
        · exact Or.inl h
        · exact Or.inr (List.mem_cons_of_mem _ h)

lemma eq_of_fst_eq_of_nodupKeys {β : Type} {l : List (Int × β)}
    (hnd : (l.map Prod.fst).Nodup) {a b : Int × β}
    (ha : a ∈ l) (hb : b ∈ l) (hfst : a.1 = b.1) : a = b := by
  induction l with
  | nil => cases ha
  | cons p rest ih =>
    rw [List.map_cons, List.nodup_cons] at hnd
    rcases List.mem_cons.mp ha with rfl | ha' <;>
      rcases List.mem_cons.mp hb with rfl | hb'
    · rfl
    · exact absurd (hfst ▸ List.mem_map_of_mem Prod.fst hb') hnd.1
    · exact absurd (hfst ▸ List.mem_map_of_mem Prod.fst ha') hnd.1
    · exact ih hnd.2 ha' hb'

lemma appendEventCapped_spec (events : List SEvent) (e : SEvent) :
    (appendEventCapped events e).length ≤ MAX_EVENTS_PER_CONTEXT ∧
    appendEventCapped events e =
      (events ++ [e]).drop ((events ++ [e]).length - MAX_EVENTS_PER_CONTEXT) := by
  unfold appendEventCapped
  by_cases h : (events ++ [e]).length > MAX_EVENTS_PER_CONTEXT
  · rw [if_pos h]
    refine ⟨?_, rfl⟩
    rw [List.length_drop]
    omega
  · rw [if_neg h]
    constructor
    · omega
    · rw [show (events ++ [e]).length - MAX_EVENTS_PER_CONTEXT = 0 by omega,
        List.drop_zero]

lemma recordTemporalEvent_tempGraph (st : SessionState) (tabId : Int)
    (url kind : String) (now : Int) {hostname : String}
    (hd : getDomain url = some hostname) (hne : getETLDPlusOne hostname ≠ "") :
    ∃ cid op,
      (recordTemporalEvent st tabId url kind now).tempGraph =
        setAssoc st.tempGraph cid
          { events := appendEventCapped
              ((lookupAssoc st.tempGraph cid).getD { events := [], updatedAt := 0 }).events
              { ts := now, domain := getETLDPlusOne hostname, tabId := tabId,
                openerTabId := op, kind := kind },
            updatedAt := now } := by
  refine ⟨resolveContextId (touchTab st.tabGraph tabId now) tabId,
    snapshotOpener (touchTab st.tabGraph tabId now) tabId, ?_⟩
  unfold recordTemporalEvent
  rw [hd]
  simp only [if_neg hne]

/-- Claim C4: session-store bounds.  (1) `record_event` preserves the
20-event per-context cap; (2) the ring-buffer append keeps at most 20 events
and exactly the newest ones (a trailing suffix of old ++ new); (3) a
successful `record_event` stores exactly the capped append in the resolved
context, stamped with the current time; (4) after `prune`, every remaining
context was updated within the 60 s TTL (every older context is absent);
(5) after `prune`, at most 200 contexts remain; (6) capacity eviction
removes oldest-updated contexts first: any context evicted by the capacity
guard is no newer than any survivor. -/
theorem sessionStore_bounds :
    (∀ (st : SessionState) (tabId : Int) (url kind : String) (now : Int),
      (∀ p ∈ st.tempGraph, p.2.events.length ≤ MAX_EVENTS_PER_CONTEXT) →
      ∀ p ∈ (recordTemporalEvent st tabId url kind now).tempGraph,
        p.2.events.length ≤ MAX_EVENTS_PER_CONTEXT) ∧
    (∀ (events : List SEvent) (e : SEvent),
      (appendEventCapped events e).length ≤ MAX_EVENTS_PER_CONTEXT ∧
      appendEventCapped events e =
        (events ++ [e]).drop ((events ++ [e]).length - MAX_EVENTS_PER_CONTEXT)) ∧
    (∀ (st : SessionState) (tabId : Int) (url kind : String) (now : Int)
        (hostname : String),
      getDomain url = some hostname →
      getETLDPlusOne hostname ≠ "" →
      ∃ cid op,
        lookupAssoc (recordTemporalEvent st tabId url kind now).tempGraph cid =
          some { events := appendEventCapped
                   ((lookupAssoc st.tempGraph cid).getD { events := [], updatedAt := 0 }).events
                   { ts := now, domain := getETLDPlusOne hostname, tabId := tabId,
                     openerTabId := op, kind := kind },
                 updatedAt := now }) ∧
    (∀ (st : SessionState) (now : Int),
      ∀ p ∈ (pruneExpiredSessionData st now).tempGraph,
        now - p.2.updatedAt ≤ TEMPORAL_TTL_MS) ∧
    (∀ (st : SessionState) (now : Int),
      (pruneExpiredSessionData st now).tempGraph.length ≤ MAX_CONTEXTS) ∧
    (∀ (st : SessionState) (now : Int),
      (st.tempGraph.map Prod.fst).Nodup →
      ∀ p ∈ ttlSurvivors st now, ∀ q ∈ ttlSurvivors st now,
        p ∈ (pruneExpiredSessionData st now).tempGraph →
        q ∉ (pruneExpiredSessionData st now).tempGraph →
        q.2.updatedAt ≤ p.2.updatedAt) := by
  have hsub : ∀ (st : SessionState) (now : Int),
      ∀ p ∈ (pruneExpiredSessionData st now).tempGraph, p ∈ ttlSurvivors st now := by
    intro st now p hp
    simp only [pruneExpiredSessionData] at hp
    split at hp
    · exact (List.mem_filter.mp hp).1
    · exact hp
  refine ⟨?_, appendEventCapped_spec, ?_, ?_, ?_, ?_⟩
  · -- (1) cap preservation
    intro st tabId url kind now hinv p hp
    cases hd : getDomain url with
    | none =>
      rw [show recordTemporalEvent st tabId url kind now = st by
        unfold recordTemporalEvent; rw [hd]] at hp
      exact hinv p hp
    | some hostname =>
      by_cases hne : getETLDPlusOne hostname = ""
      · rw [show recordTemporalEvent st tabId url kind now = st by
          unfold recordTemporalEvent; rw [hd]; simp only [if_pos hne]] at hp
        exact hinv p hp
      · obtain ⟨cid, op, heq⟩ :=
          recordTemporalEvent_tempGraph st tabId url kind now hd hne
        rw [heq] at hp
        rcases mem_setAssoc hp with rfl | hp'
        · exact (appendEventCapped_spec _ _).1
        · exact hinv p hp'
  · -- (3) exactness of a successful record
    intro st tabId url kind now hostname hd hne
    obtain ⟨cid, op, heq⟩ := recordTemporalEvent_tempGraph st tabId url kind now hd hne
    exact ⟨cid, op, by rw [heq, lookupAssoc_setAssoc_self]⟩
  · -- (4) freshness after prune
    intro st now p hp
    have := List.mem_filter.mp (hsub st now p hp)
    exact of_decide_eq_true this.2
  · -- (5) capacity after prune
    intro st now
    simp only [pruneExpiredSessionData]
    split
    · next hlen =>
      set temp1 := ttlSurvivors st now with htemp1
      set k := temp1.length - MAX_CONTEXTS with hk
      set sorted := sortByKey (fun p => p.2.updatedAt) temp1 with hsorted
      set rk := (sorted.take k).map Prod.fst with hrk
      have hperm : sorted.Perm temp1 := sortByKey_perm _ _
      have hlensorted : sorted.length = temp1.length := hperm.length_eq
      rw [← List.countP_eq_length_filter]
      rw [show List.countP (fun p => decide (p.1 ∉ rk)) temp1 =
          List.countP (fun p => decide (p.1 ∉ rk)) sorted from (hperm.countP_eq _).symm]
      rw [show sorted = sorted.take k ++ sorted.drop k from (List.take_append_drop _ _).symm,
        List.countP_append]
      have h0 : List.countP (fun p => decide (p.1 ∉ rk)) (sorted.take k) = 0 := by
        rw [List.countP_eq_zero]
        intro a ha
        simp only [decide_eq_true_eq, not_not]
        exact List.mem_map_of_mem Prod.fst ha
      rw [h0]
      have hle := List.countP_le_length (fun p => decide (p.1 ∉ rk)) (l := sorted.drop k)
      rw [List.length_drop, hlensorted] at hle
      omega
    · next hlen => omega
  · -- (6) oldest evicted first
    intro st now hnd p hpt q hqt hp hq
    simp only [pruneExpiredSessionData] at hp hq
    by_cases hlen : (ttlSurvivors st now).length > MAX_CONTEXTS
    · rw [if_pos hlen] at hp hq
      set temp1 := ttlSurvivors st now with htemp1
      set k := temp1.length - MAX_CONTEXTS with hk
      set sorted := sortByKey (fun p => p.2.updatedAt) temp1 with hsorted
      set rk := (sorted.take k).map Prod.fst with hrk
      have hperm : sorted.Perm temp1 := sortByKey_perm _ _
      have hndt : (temp1.map Prod.fst).Nodup := by
        have hsl : temp1.Sublist st.tempGraph := List.filter_sublist _
        exact (hsl.map Prod.fst).nodup hnd
      have hnds : (sorted.map Prod.fst).Nodup := by
        have : (sorted.map Prod.fst).Perm (temp1.map Prod.fst) := hperm.map _
        exact this.nodup_iff.mpr hndt
      -- q was evicted: its key is among the removed ones, so q is in the take
      have hqrk : q.1 ∈ rk := by
        by_contra hqrk
        exact hq (List.mem_filter.mpr ⟨hqt, decide_eq_true hqrk⟩)
      obtain ⟨q', hq'take, hq'fst⟩ := List.mem_map.mp hqrk
      have hq'mem : q' ∈ temp1 := hperm.mem_iff.mp (List.mem_of_mem_take hq'take)
      have hqq' : q' = q := eq_of_fst_eq_of_nodupKeys hndt hq'mem hqt hq'fst
      -- p survives: its key is not removed, so p is in the drop
      have hprk : p.1 ∉ rk := by
        have := (List.mem_filter.mp hp).2
        exact of_decide_eq_true this
      have hpsorted : p ∈ sorted := hperm.mem_iff.mpr hpt
      have hpdrop : p ∈ sorted.drop k := by
        rcases (List.mem_append.mp
          (by rw [List.take_append_drop]; exact hpsorted :
            p ∈ sorted.take k ++ sorted.drop k)) with h | h
        · exact absurd (List.mem_map_of_mem Prod.fst h) hprk
        · exact h
      -- sortedness: every taken element is no newer than every kept one
      have hpair := sortByKey_pairwise (fun p => p.2.updatedAt) temp1
      rw [← hsorted, show sorted = sorted.take k ++ sorted.drop k from
        (List.take_append_drop _ _).symm] at hpair
      have := (List.pairwise_append.mp hpair).2.2 q' hq'take p hpdrop
      rw [hqq'] at this
      exact this
    · rw [if_neg hlen] at hq
      exact absurd hqt hq

/-- Witness for C4 applying the record-exactness conjunct at a concrete
state and URL. -/
theorem sessionStore_bounds_witness :
    ∃ cid op,
      lookupAssoc (recordTemporalEvent ⟨[], []⟩ 1 "https://www.example.com/a"
          "committed" 5).tempGraph cid =
        some { events := appendEventCapped
                 ((lookupAssoc (⟨[], []⟩ : SessionState).tempGraph cid).getD
                   { events := [], updatedAt := 0 }).events
                 { ts := 5, domain := getETLDPlusOne "www.example.com", tabId := 1,
                   openerTabId := op, kind := "committed" },
               updatedAt := 5 } :=
  sessionStore_bounds.2.2.1 ⟨[], []⟩ 1 "https://www.example.com/a" "committed" 5
    "www.example.com" (by decide) (by decide)

lemma mapToManagementState_ne_suggested (level : String) (score conf : ℚ)
    (rp : Option String) (flags : List String) (seen : Int) (pinned : Bool)
    (h : conf < 8/10) :
    mapToManagementState level score conf rp flags seen pinned ≠
      MANAGEMENT_STATE.SUGGESTED := by
  unfold mapToManagementState
  split_ifs with h1 h2 h3 h4 h5 h6
  · decide
  · intro _; linarith [h2.1]
  · intro _; linarith [h3.1]
  · decide
  · decide
  · decide
  · decide

lemma structuralFields_saml_cap (env : ClassifyEnv) (fin : FinalizedConfidence)
    (rpCandidate idpCandidate : Option String) (reasons : List String)
    (ctx : ClassifyCtx)
    (h1 : fin.evidenceFlags.contains TEMPORAL_CHAIN = false)
    (h2 : fin.evidenceFlags.contains REDIRECT_URI_MATCH = false) :
    (structuralFields env true fin rpCandidate idpCandidate reasons ctx).numericConfidence
        ≤ 6/10 ∧
    (structuralFields env true fin rpCandidate idpCandidate reasons ctx).level =
        ActivityLevels.ACCOUNT ∧
    (structuralFields env true fin rpCandidate idpCandidate reasons ctx).management_state ≠
        MANAGEMENT_STATE.SUGGESTED := by
  have hcond : (true && !(fin.evidenceFlags.contains TEMPORAL_CHAIN) &&
      !(fin.evidenceFlags.contains REDIRECT_URI_MATCH)) = true := by
    rw [h1, h2]; rfl
  have hnum : (structuralFields env true fin rpCandidate idpCandidate reasons
      ctx).numericConfidence = min fin.confidence (6/10) := by
    show (if (true && !(fin.evidenceFlags.contains TEMPORAL_CHAIN) &&
        !(fin.evidenceFlags.contains REDIRECT_URI_MATCH)) = true then
        min fin.confidence (6/10) else fin.confidence) = min fin.confidence (6/10)
    rw [hcond]
    simp
  refine ⟨by rw [hnum]; exact min_le_right _ _, rfl, ?_⟩
  obtain ⟨frp, hms⟩ : ∃ frp,
      (structuralFields env true fin rpCandidate idpCandidate reasons
        ctx).management_state =
      mapToManagementState ActivityLevels.ACCOUNT
        (structuralFields env true fin rpCandidate idpCandidate reasons ctx).risk_score
        (structuralFields env true fin rpCandidate idpCandidate reasons
          ctx).numericConfidence
        frp fin.evidenceFlags (ctx.visitCount.getD 0) ctx.isPinned := ⟨_, rfl⟩
  rw [hms, hnum]
  refine mapToManagementState_ne_suggested _ _ _ _ _ _ _ ?_
  calc min fin.confidence (6/10) ≤ 6/10 := min_le_right _ _
    _ < 8/10 := by norm_num

/-- Claim C7: for every classification in which the SAML DOM signal is
present and the finalized evidence flags contain neither redirect-URI-match
nor temporal-chain, the numeric confidence is at most 0.6, the activity
level is forced to account, and — because 0.6 is below the 0.8 threshold —
the management state can never be "suggested".  Holds for every behaviour of
the weights/RP-inference/risk environment. -/
theorem classify_saml_only_capped (env : ClassifyEnv) (url : String)
    (explicitSignals : List String) (ctx : ClassifyCtx)
    (hsaml : DOM_SAML ∈ explicitSignals)
    (hchain : ((classify env url explicitSignals ctx).evidenceFlags.getD
      []).contains TEMPORAL_CHAIN = false)
    (hredir : ((classify env url explicitSignals ctx).evidenceFlags.getD
      []).contains REDIRECT_URI_MATCH = false) :
    (classify env url explicitSignals ctx).numericConfidence ≤ 6/10 ∧
    (classify env url explicitSignals ctx).level = ActivityLevels.ACCOUNT ∧
    (classify env url explicitSignals ctx).management_state ≠
      MANAGEMENT_STATE.SUGGESTED := by
  have hv : ((validateSignals explicitSignals).contains DOM_SAML) = true :=
    List.elem_iff.mpr (List.mem_filter.mpr ⟨hsaml, by decide⟩)
  have hbranch : classify env url explicitSignals ctx =
      classifyStructural env url true
        (evaluateSignals (extractUrlSignals url ++ validateSignals explicitSignals))
        (detectOAuth url) (env.idpFromUrl url) ctx := by
    unfold classify
    rw [hv, Bool.or_true]
    simp
  obtain ⟨fin, rp, heq⟩ : ∃ fin rp,
      classifyStructural env url true
        (evaluateSignals (extractUrlSignals url ++ validateSignals explicitSignals))
        (detectOAuth url) (env.idpFromUrl url) ctx =
      structuralFields env true fin rp (env.idpFromUrl url)
        (evaluateSignals
          (extractUrlSignals url ++ validateSignals explicitSignals)).reasons ctx :=
    ⟨_, _, rfl⟩
  rw [hbranch, heq] at hchain hredir ⊢
  have hflags : (structuralFields env true fin rp (env.idpFromUrl url)
      (evaluateSignals
        (extractUrlSignals url ++ validateSignals explicitSignals)).reasons
      ctx).evidenceFlags = some fin.evidenceFlags := rfl
  rw [hflags, Option.getD_some] at hchain hredir
  exact structuralFields_saml_cap env fin rp (env.idpFromUrl url) _ ctx hchain hredir

/-- Witness for C7: a page carrying only the SAML DOM signal, classified in
the concrete environment. -/
theorem classify_saml_only_capped_witness :
    (classify trivialEnv "https://sso.example/page" [DOM_SAML]
      ⟨none, none, false⟩).numericConfidence ≤ 6/10 ∧
    (classify trivialEnv "https://sso.example/page" [DOM_SAML]
      ⟨none, none, false⟩).level = ActivityLevels.ACCOUNT ∧
    (classify trivialEnv "https://sso.example/page" [DOM_SAML]
      ⟨none, none, false⟩).management_state ≠ MANAGEMENT_STATE.SUGGESTED :=
  classify_saml_only_capped trivialEnv "https://sso.example/page" [DOM_SAML]
    ⟨none, none, false⟩ (by decide) (by decide) (by decide)

lemma classifyHeuristic_downgrade (env : ClassifyEnv) (base : EvalResult)
    (idpCandidate : Option String) (ctx : ClassifyCtx)
    (hacc : base.level = ActivityLevels.ACCOUNT)
    (hweak : base.reasons.all
      (fun r => [URL_LOGIN, URL_ACCOUNT, URL_SIGNUP].contains r) = true)
    (hdom : base.reasons.any (fun r => strStartsWith r "dom_") = false) :
    (classifyHeuristic env base idpCandidate ctx).level = ActivityLevels.VIEW ∧
    (classifyHeuristic env base idpCandidate ctx).numericConfidence = 3/10 ∧
    (classifyHeuristic env base idpCandidate ctx).confidence = "low" ∧
    "ambiguous_auth_keyword" ∈ (classifyHeuristic env base idpCandidate ctx).reasons := by
  have hw2 : ∀ x ∈ base.reasons, x = URL_LOGIN ∨ x = URL_ACCOUNT ∨ x = URL_SIGNUP := by
    intro x hx
    have := List.all_eq_true.mp hweak x hx
    simpa using this
  refine ⟨?_, ?_, ?_, ?_⟩ <;>
    · simp [classifyHeuristic, hacc, hdom]
      rw [if_pos hw2] <;> simp

/-- Claim C8: when structural OAuth detection and the SAML signal are both
negative and the base heuristic classified the page as account relying
exclusively on the weak URL qualifiers (url_login, url_signup, url_account)
with no DOM-derived signal, the classifier downgrades to level view with low
confidence (numeric 0.3) and a reason set containing the ambiguous-keyword
marker — so a path like "/author" (matching the "auth" substring) is not
classified as account. -/
theorem classify_weak_keyword_downgraded (env : ClassifyEnv) (url : String)
    (explicitSignals : List String) (ctx : ClassifyCtx)
    (hoauth : (detectOAuth url).isOAuth = false)
    (hsaml : DOM_SAML ∉ explicitSignals)
    (hacc : (evaluateSignals
      (extractUrlSignals url ++ validateSignals explicitSignals)).level =
      ActivityLevels.ACCOUNT)
    (hweak : ∀ r ∈ (evaluateSignals
      (extractUrlSignals url ++ validateSignals explicitSignals)).reasons,
      r ∈ [URL_LOGIN, URL_ACCOUNT, URL_SIGNUP])
    (hdom : ∀ r ∈ (evaluateSignals
      (extractUrlSignals url ++ validateSignals explicitSignals)).reasons,
      strStartsWith r "dom_" = false) :
    (classify env url explicitSignals ctx).level = ActivityLevels.VIEW ∧
    (classify env url explicitSignals ctx).numericConfidence = 3/10 ∧
    (classify env url explicitSignals ctx).confidence = "low" ∧
    "ambiguous_auth_keyword" ∈ (classify env url explicitSignals ctx).reasons := by
  have hnosaml : ((validateSignals explicitSignals).contains DOM_SAML) = false := by
    rw [Bool.eq_false_iff]
    intro hc
    exact hsaml (List.mem_filter.mp (List.elem_iff.mp hc)).1
  have hbranch : classify env url explicitSignals ctx = classifyHeuristic env
      (evaluateSignals (extractUrlSignals url ++ validateSignals explicitSignals))
      (env.idpFromUrl url) ctx := by
    unfold classify
    rw [hoauth, hnosaml]
    simp
  have hweak' : (evaluateSignals
      (extractUrlSignals url ++ validateSignals explicitSignals)).reasons.all
      (fun r => [URL_LOGIN, URL_ACCOUNT, URL_SIGNUP].contains r) = true := by
    rw [List.all_eq_true]
    intro r hr
    exact List.elem_iff.mpr (hweak r hr)
  have hdom' : (evaluateSignals
      (extractUrlSignals url ++ validateSignals explicitSignals)).reasons.any
      (fun r => strStartsWith r "dom_") = false := by
    rw [List.any_eq_false]
    intro r hr
    rw [hdom r hr]
    exact Bool.false_ne_true
  rw [hbranch]
  exact classifyHeuristic_downgrade env _ (env.idpFromUrl url) ctx hacc hweak' hdom'

/-- Witness for C8: the path "/author" matches the weak "auth" keyword but is
downgraded to view. -/
theorem classify_weak_keyword_downgraded_witness :
    (classify trivialEnv "https://blog.example/author" []
      ⟨none, none, false⟩).level = ActivityLevels.VIEW ∧
    (classify trivialEnv "https://blog.example/author" []
      ⟨none, none, false⟩).numericConfidence = 3/10 ∧
    (classify trivialEnv "https://blog.example/author" []
      ⟨none, none, false⟩).confidence = "low" ∧
    "ambiguous_auth_keyword" ∈
      (classify trivialEnv "https://blog.example/author" []
        ⟨none, none, false⟩).reasons :=
  classify_weak_keyword_downgraded trivialEnv "https://blog.example/author" []
    ⟨none, none, false⟩ (by decide) (by decide) (by decide) (by decide) (by decide)

end PDTM
